import Mathlib

/-!
# Web_VetaApp: the chat store (`frontend/src/store/useChatStore.js`)

A shallow embedding of the zustand chat store: the messages list, the
optimistic send (`sendMessage`) split at its `await`, the history fetch, the
reaction actions and the five socket handlers registered by
`subscribeToMessages`; and of the parts of the components that drive it: the
subscribe effect and `groupMessagesByDate` of `ChatContainer`, the send guard,
the attachment handlers and the typing effect of `MessageInput`, and
`handleReactionClick` of `Message`.  The properties of the conversation
synchronisation follow the definitions.

Modelling conventions.

* A JavaScript primitive is a `JsVal`; `===` on primitives is equality of
  `JsVal` (numbers are integers here, so there is no `NaN`), and the
  truthiness test of `if (v)`, `!v` and `v || w` is `JsVal.truthy`.
* An `async` action is split at its `await`: the part before it, and one
  function for each way the awaited call can settle.  Between the two, any
  other store transition may run.
* `set(fn)` of zustand is a function `ChatState → ChatState`; a handler whose
  callback can raise returns `Except JsError ChatState`, and the store keeps
  its previous state when it raises (`storeAfter`).
* Toasts, console output and the notification sound are effects outside the
  store and are not part of the state.
-/

namespace ChatStore

/-! ## Values -/

/-- A JavaScript primitive value, as carried by a JSON payload. -/
inductive JsVal where
  | undefined
  | null
  | bool (b : Bool)
  | num (n : Int)
  | str (s : String)
  deriving DecidableEq, Repr

/-- Truthiness of a primitive: `undefined`, `null`, `false`, `0` and the empty
string are falsy, everything else is truthy. -/
def JsVal.truthy : JsVal → Bool
  | .undefined => false
  | .null => false
  | .bool b => b
  | .num n => n != 0
  | .str s => s != ""

/-- The JavaScript `a || b` on primitives. -/
def JsVal.or (a b : JsVal) : JsVal :=
  if a.truthy then a else b

/-- The exception a handler can raise. -/
inductive JsError where
  | typeError
  deriving DecidableEq, Repr

/-! ## Data model -/

/-- A user object; only `_id` is read by the store. -/
structure User where
  _id : JsVal
  deriving DecidableEq, Repr

/-- A message object.  `createdAt` is the ISO-8601 string of the creation
instant; `deliveredAt` and `readAt` are absent (`undefined`) until a receipt
sets them; `reactions` maps a user id to one emoji. -/
structure Message where
  _id : JsVal
  senderId : JsVal
  receiverId : JsVal
  text : JsVal
  image : JsVal
  video : JsVal
  replyTo : JsVal
  createdAt : String
  isOptimistic : Bool
  reactions : List (String × String)
  deliveredAt : JsVal
  readAt : JsVal
  deriving DecidableEq, Repr

/-- The argument of `sendMessage`. -/
structure MessageData where
  text : JsVal
  imageFile : JsVal
  videoFile : JsVal
  imagePreview : JsVal
  videoPreview : JsVal
  replyTo : JsVal
  deriving DecidableEq, Repr

/-- The part of the store state that the conversation logic reads and writes. -/
structure ChatState where
  messages : List Message
  selectedUser : Option User
  isMessagesLoading : Bool
  typingUsers : List JsVal
  deriving DecidableEq, Repr

/-- The initial store state. -/
def ChatState.init : ChatState :=
  { messages := [], selectedUser := none, isMessagesLoading := false, typingUsers := [] }

/-- Payload of the `userTyping` event. -/
structure UserTypingEvent where
  userId : JsVal
  isTyping : JsVal
  deriving DecidableEq, Repr

/-- Payload of the `messageReaction` event. -/
structure MessageReactionEvent where
  messageId : JsVal
  reactions : List (String × String)
  deriving DecidableEq, Repr

/-- Payload of the `messageDelivered` event. -/
structure MessageDeliveredEvent where
  messageId : JsVal
  deliveredAt : JsVal
  deriving DecidableEq, Repr

/-- Payload of the `messagesRead` event. -/
structure MessagesReadEvent where
  userId : JsVal
  readAt : JsVal
  deriving DecidableEq, Repr

/-- The state of the store after a transition that may have raised: zustand
does not write the state when the updater passed to `set` throws. -/
def storeAfter (old : ChatState) : Except JsError ChatState → ChatState
  | .ok s => s
  | .error _ => old

/-! ## Store actions -/

/-- `setSelectedUser: (selectedUser) => set({ selectedUser })`. -/
def setSelectedUser (selectedUser : Option User) (state : ChatState) : ChatState :=
  { state with selectedUser := selectedUser }

/-- `getMessagesByUserId`, up to the `await`: `set({ isMessagesLoading: true })`. -/
def getMessagesByUserIdBegin (state : ChatState) : ChatState :=
  { state with isMessagesLoading := true }

/-- `getMessagesByUserId`, the request resolved with `res.data`:
`set({ messages: res.data })`, then the `finally` block. -/
def getMessagesByUserIdSuccess (resData : List Message) (state : ChatState) : ChatState :=
  { { state with messages := resData } with isMessagesLoading := false }

/-- `getMessagesByUserId`, the request rejected: only the `finally` block
writes the state. -/
def getMessagesByUserIdFailure (state : ChatState) : ChatState :=
  { state with isMessagesLoading := false }

/-- The temporary id of a send started at clock reading `now`
(`Date.now()`, in milliseconds). -/
def tempId (now : Nat) : JsVal :=
  .str ("temp-" ++ toString now)

/-- The optimistic message that `sendMessage` builds; `createdAt` is
`new Date().toISOString()`. -/
def optimisticMessage (now : Nat) (createdAt : String) (authUser selectedUser : User)
    (messageData : MessageData) : Message :=
  { _id := tempId now
    senderId := authUser._id
    receiverId := selectedUser._id
    text := messageData.text
    image := messageData.imagePreview.or .null
    video := messageData.videoPreview.or .null
    replyTo := messageData.replyTo.or .null
    createdAt := createdAt
    isOptimistic := true
    reactions := []
    deliveredAt := .undefined
    readAt := .undefined }

/-- `sendMessage`, up to the `await` of the POST request.  Returns `none` when
the guard `!selectedUser || !authUser` stops the call (nothing is written and
no request is made); otherwise the temporary id of the send, the peer the
request is addressed to, and the state with the optimistic message appended. -/
def sendMessageBegin (now : Nat) (createdAt : String) (authUser : Option User)
    (messageData : MessageData) (state : ChatState) : Option (JsVal × User × ChatState) :=
  match state.selectedUser, authUser with
  | some selectedUser, some authUser =>
    some (tempId now, selectedUser,
      { state with
        messages := state.messages ++ [optimisticMessage now createdAt authUser selectedUser messageData] })
  | _, _ => none

/-- `sendMessage`, the request resolved with `res.data`: every message whose
`_id` is the temporary id is replaced by `res.data`. -/
def sendMessageSuccess (tempId : JsVal) (resData : Message) (state : ChatState) : ChatState :=
  { state with messages := state.messages.map (fun m => if m._id = tempId then resData else m) }

/-- `sendMessage`, the request rejected (the `catch` branch): every message
whose `_id` is the temporary id is removed. -/
def sendMessageFailure (tempId : JsVal) (state : ChatState) : ChatState :=
  { state with messages := state.messages.filter (fun m => decide (m._id ≠ tempId)) }

/-! ## Socket handlers

`subscribeToMessages` reads `selectedUser` once and every handler closes over
that value, so each handler takes the captured peer as a parameter. -/

/-- The `newMessage` handler. -/
def newMessageHandler (selectedUser : User) (newMessage : Message) (state : ChatState) :
    ChatState :=
  let isMessageFromSelectedUser :=
    decide (newMessage.senderId = selectedUser._id) ||
    decide (newMessage.receiverId = selectedUser._id)
  if !isMessageFromSelectedUser then state
  else
    let alreadyExists := state.messages.any (fun m => decide (m._id = newMessage._id))
    if alreadyExists then state
    else { state with messages := state.messages ++ [newMessage] }

/-- The `userTyping` handler. -/
def userTypingHandler (selectedUser : User) (ev : UserTypingEvent) (state : ChatState) :
    ChatState :=
  if ev.userId ≠ selectedUser._id then state
  else if ev.isTyping.truthy then
    { state with
      typingUsers :=
        if state.typingUsers.contains ev.userId then state.typingUsers
        else state.typingUsers ++ [ev.userId] }
  else
    { state with typingUsers := state.typingUsers.filter (fun id => decide (id ≠ ev.userId)) }

/-- The `messageReaction` handler. -/
def messageReactionHandler (ev : MessageReactionEvent) (state : ChatState) : ChatState :=
  { state with
    messages :=
      state.messages.map (fun m =>
        if m._id = ev.messageId then { m with reactions := ev.reactions } else m) }

/-- The `messageDelivered` handler. -/
def messageDeliveredHandler (ev : MessageDeliveredEvent) (state : ChatState) : ChatState :=
  { state with
    messages :=
      state.messages.map (fun m =>
        if m._id = ev.messageId then { m with deliveredAt := ev.deliveredAt } else m) }

/-- The patch that the `messagesRead` handler applies to one message, for the
local user `authUser`. -/
def markRead (authUser : User) (ev : MessagesReadEvent) (m : Message) : Message :=
  if m.senderId = authUser._id ∧ m.receiverId = ev.userId ∧ m.readAt.truthy = false then
    { m with readAt := ev.readAt }
  else m

/-- The `messagesRead` handler.  The callback of `map` reads
`useAuthStore.getState().authUser._id` for every message: with no
authenticated user (`authUser` is `null`) it raises a `TypeError` on the first
message, and with an empty list it is never called. -/
def messagesReadHandler (selectedUser : User) (authUser : Option User) (ev : MessagesReadEvent)
    (state : ChatState) : Except JsError ChatState :=
  if ev.userId ≠ selectedUser._id then .ok state
  else
    match authUser with
    | some authUser => .ok { state with messages := state.messages.map (markRead authUser ev) }
    | none =>
      match state.messages with
      | [] => .ok { state with messages := [] }
      | _ :: _ => .error .typeError

/-! ## Predicates used by the properties -/

/-- The `_id`s of a messages list, in list order. -/
def ids (l : List Message) : List JsVal :=
  l.map (fun m => m._id)

/-- No two messages of the list share an `_id`. -/
def distinctIds (l : List Message) : Prop :=
  (ids l).Nodup

/-- The list is in ascending `createdAt` order: a message never comes before
one with a strictly earlier `createdAt`, so messages with equal `createdAt`
stand in list (insertion) order. -/
def sortedByCreatedAt (l : List Message) : Prop :=
  l.Pairwise (fun a b => a.createdAt ≤ b.createdAt)

/-- Running a handler `n` times in a row. -/
def repeatHandler (h : ChatState → ChatState) : Nat → ChatState → ChatState
  | 0, s => s
  | n + 1, s => repeatHandler h n (h s)

/-- The number of messages of the list whose `_id` is `t`. -/
def countId (t : JsVal) (l : List Message) : Nat :=
  l.countP (fun m => decide (m._id = t))

/-- The value of a decimal digit character. -/
def digitValue (c : Char) : Nat :=
  c.toNat - 48

/-- Reading decimal digits, most significant first, onto an accumulator. -/
def readDigits (acc : Nat) (l : List Char) : Nat :=
  l.foldl (fun a c => 10 * a + digitValue c) acc

instance (l : List Message) : Decidable (distinctIds l) :=
  inferInstanceAs (Decidable (ids l).Nodup)

/-- A message with the given id, sender, receiver and creation time, and every
other field empty; used to build concrete stores. -/
def sampleMessage (id sender receiver createdAt : String) : Message :=
  { _id := .str id
    senderId := .str sender
    receiverId := .str receiver
    text := .str "hi"
    image := .null
    video := .null
    replyTo := .null
    createdAt := createdAt
    isOptimistic := false
    reactions := []
    deliveredAt := .undefined
    readAt := .undefined }

/-- A text-only draft. -/
def sampleDraft : MessageData :=
  { text := .str "yo", imageFile := .null, videoFile := .null, imagePreview := .null,
    videoPreview := .null, replyTo := .undefined }

/-- The scenario of the specification on the store: `peer` is selected, the
history fetch resolves with `history`, a send is started, the `newMessage`
event `incoming` is delivered `deliveries` times while the send is in flight,
and the send is then confirmed with `resData`.  The result is `none` when the
guard of `sendMessage` stops the send. -/
def scenario (peer authUser : User) (history : List Message) (now : Nat) (createdAt : String)
    (messageData : MessageData) (incoming : Message) (deliveries : Nat) (resData : Message)
    (state : ChatState) : Option ChatState :=
  let loaded :=
    getMessagesByUserIdSuccess history
      (getMessagesByUserIdBegin (setSelectedUser (some peer) state))
  match sendMessageBegin now createdAt (some authUser) messageData loaded with
  | none => none
  | some (t, _, sent) =>
    some (sendMessageSuccess t resData
      (repeatHandler (newMessageHandler peer incoming) deliveries sent))

/-- A store with the given messages and selected peer. -/
def sampleState (peer : String) (l : List Message) : ChatState :=
  { messages := l, selectedUser := some { _id := .str peer }, isMessagesLoading := false,
    typingUsers := [] }

/-! ## Effects of `sendMessage` and its caller

The store transitions above keep only the state.  The definitions below add
what `sendMessage` does besides: the toast it shows, the POST request it
issues, and the way its promise settles. -/

/-- The POST request of `sendMessage`: the peer id of the URL
`/messages/send/<id>` and the entries appended to the form data. -/
structure PostRequest where
  peerId : JsVal
  formData : List (String × JsVal)
  deriving DecidableEq, Repr

/-- The form data that `sendMessage` builds: a field is appended when its
value is truthy. -/
def formDataOf (messageData : MessageData) : List (String × JsVal) :=
  (if messageData.text.truthy then [("text", messageData.text)] else []) ++
  (if messageData.imageFile.truthy then [("media", messageData.imageFile)] else []) ++
  (if messageData.videoFile.truthy then [("media", messageData.videoFile)] else []) ++
  (if messageData.replyTo.truthy then [("replyTo", messageData.replyTo)] else [])

/-- What `sendMessage` has done when it reaches its `await` or returns at its
guard: the state written, the toast shown, the request issued and the
temporary id of the send. -/
structure SendStart where
  state : ChatState
  toast : Option String
  request : Option PostRequest
  tempId : Option JsVal
  deriving DecidableEq, Repr

/-- `sendMessage` up to its `await`, with its effects.  At the guard it shows
the toast `No conversation selected` and returns; otherwise it writes the
optimistic message and then issues the POST request. -/
def sendMessageStart (now : Nat) (createdAt : String) (authUser : Option User)
    (messageData : MessageData) (state : ChatState) : SendStart :=
  match sendMessageBegin now createdAt authUser messageData state with
  | none =>
    { state := state, toast := some "No conversation selected", request := none, tempId := none }
  | some (t, selectedUser, written) =>
    { state := written, toast := none,
      request := some { peerId := selectedUser._id, formData := formDataOf messageData },
      tempId := some t }

/-- The way the promise returned by an `async` action settles. -/
inductive Settled where
  | fulfilled
  | rejected
  deriving DecidableEq, Repr

/-- The error a request rejects with; `message` is
`error.response?.data?.message`, `undefined` when the error has none. -/
structure RequestError where
  message : JsVal
  deriving DecidableEq, Repr

/-- The way the awaited POST request settles. -/
inductive PostResult where
  | resolved (resData : Message)
  | rejected (error : RequestError)
  deriving DecidableEq, Repr

/-- What `sendMessage` has done when it returns after its `await`. -/
structure SendEnd where
  state : ChatState
  toast : Option JsVal
  settled : Settled
  deriving DecidableEq, Repr

/-- `sendMessage` after its `await`.  When the request resolves the `try`
block ends; when it rejects the `catch` block removes the optimistic message,
shows the toast `error.response?.data?.message || "Failed to send message"`
and logs the error.  The `catch` block does not throw again, so in both cases
the `async` function returns and its promise is fulfilled. -/
def sendMessageEnd (tempId : JsVal) (result : PostResult) (state : ChatState) : SendEnd :=
  match result with
  | .resolved resData =>
    { state := sendMessageSuccess tempId resData state, toast := none, settled := .fulfilled }
  | .rejected error =>
    { state := sendMessageFailure tempId state,
      toast := some (error.message.or (.str "Failed to send message")),
      settled := .fulfilled }

/-- The code points that `String.prototype.trim` removes (white space and line
terminators of ECMAScript). -/
def isJsWhitespace (c : Char) : Bool :=
  [0x9, 0xA, 0xB, 0xC, 0xD, 0x20, 0xA0, 0x1680, 0x2028, 0x2029, 0x202F, 0x205F, 0x3000,
    0xFEFF].contains c.toNat ||
  (0x2000 ≤ c.toNat && c.toNat ≤ 0x200A)

/-- The JavaScript `text.trim()`. -/
def jsTrim (text : String) : String :=
  String.mk ((text.data.dropWhile isJsWhitespace).reverse.dropWhile isJsWhitespace).reverse

/-- A text is blank when it is empty or holds white space only. -/
def isBlank (text : String) : Prop :=
  ∀ c ∈ text.data, isJsWhitespace c = true

/-- `handleSendMessage` of `MessageInput`, up to its call of `sendMessage`:
`none` when it returns at `!text.trim() && !imageFile && !videoFile` without
calling the store, otherwise the argument it passes to `sendMessage`.
`replyingTo` is the message being replied to, if any. -/
def handleSendMessage (text : String) (imageFile videoFile : JsVal)
    (replyingTo : Option Message) : Option MessageData :=
  if (!(JsVal.str (jsTrim text)).truthy && !imageFile.truthy && !videoFile.truthy) = true then none
  else
    some
      { text := .str (jsTrim text)
        imageFile := imageFile
        videoFile := videoFile
        imagePreview := .undefined
        videoPreview := .undefined
        replyTo :=
          match replyingTo with
          | some r => r._id
          | none => .undefined }

/-! ## Socket listeners and the subscription effect -/

/-- The socket events named in the client. -/
inductive SocketEvent where
  | newMessage
  | userTyping
  | messageReaction
  | messageDelivered
  | messagesRead
  | getOnlineUsers
  deriving DecidableEq, Repr

/-- A registered listener: its event and the peer its closure captured (none
for a listener that captures no peer). -/
structure Listener where
  event : SocketEvent
  captured : Option User
  deriving DecidableEq, Repr

/-- The listener table of a socket, in registration order. -/
structure Socket where
  listeners : List Listener
  deriving DecidableEq, Repr

/-- `socket.on(event, handler)`: one more listener for the event. -/
def Socket.on (socket : Socket) (event : SocketEvent) (captured : Option User) : Socket :=
  { listeners := socket.listeners ++ [{ event := event, captured := captured }] }

/-- `socket.off(event)`: every listener of the event is removed. -/
def Socket.off (socket : Socket) (event : SocketEvent) : Socket :=
  { listeners := socket.listeners.filter (fun l => decide (l.event ≠ event)) }

/-- The number of listeners registered for an event. -/
def Socket.handlerCount (socket : Socket) (event : SocketEvent) : Nat :=
  socket.listeners.countP (fun l => decide (l.event = event))

/-- The five events of the conversation. -/
def chatEvents : List SocketEvent :=
  [.newMessage, .userTyping, .messageReaction, .messageDelivered, .messagesRead]

/-- `subscribeToMessages`: nothing without a selected peer or without a
socket; otherwise one listener per event, each closing over the selected peer. -/
def subscribeToMessages (state : ChatState) (socket : Option Socket) : Option Socket :=
  match state.selectedUser with
  | none => socket
  | some selectedUser =>
    match socket with
    | none => none
    | some sk =>
      some (((((sk.on .newMessage (some selectedUser)).on .userTyping (some selectedUser)).on
        .messageReaction (some selectedUser)).on .messageDelivered (some selectedUser)).on
        .messagesRead (some selectedUser))

/-- `unsubscribeFromMessages`: nothing without a socket; otherwise `off` for
each of the five events. -/
def unsubscribeFromMessages (socket : Option Socket) : Option Socket :=
  match socket with
  | none => none
  | some sk =>
    some (((((sk.off .newMessage).off .userTyping).off .messageReaction).off
      .messageDelivered).off .messagesRead)

/-- The chat store, the socket of the auth store, and whether the last run of
the subscribe effect of `ChatContainer` returned its cleanup function. -/
structure Session where
  state : ChatState
  socket : Option Socket
  cleanup : Bool
  deriving DecidableEq, Repr

/-- The body of the subscribe effect of `ChatContainer`: it returns at once
when `selectedUser?._id` is falsy, otherwise it starts the history fetch,
subscribes, and returns the cleanup function. -/
def chatContainerEffect (s : Session) : Session :=
  match s.state.selectedUser with
  | none => { s with cleanup := false }
  | some selectedUser =>
    if selectedUser._id.truthy then
      { state := getMessagesByUserIdBegin s.state
        socket := subscribeToMessages (getMessagesByUserIdBegin s.state) s.socket
        cleanup := true }
    else { s with cleanup := false }

/-- The cleanup of the subscribe effect, run before its next run when the last
run returned it. -/
def chatContainerCleanup (s : Session) : Session :=
  if s.cleanup then { s with socket := unsubscribeFromMessages s.socket, cleanup := false }
  else s

/-- Mounting `ChatContainer`: the first run of the effect. -/
def mountChatContainer (state : ChatState) (socket : Option Socket) : Session :=
  chatContainerEffect { state := state, socket := socket, cleanup := false }

/-- A conversation switch: `setSelectedUser`, then the cleanup of the previous
effect run, then the effect for the new selection. -/
def switchConversation (s : Session) (selectedUser : Option User) : Session :=
  chatContainerEffect (chatContainerCleanup { s with state := setSelectedUser selectedUser s.state })

/-- The invariant of the subscribe effect: a socket is present; when no cleanup
is pending none of the five events has a listener, and otherwise each has at
most one. -/
def subscriptionInvariant (s : Session) : Prop :=
  ∃ sk, s.socket = some sk ∧
    ∀ ev ∈ chatEvents, sk.handlerCount ev ≤ 1 ∧ (s.cleanup = false → sk.handlerCount ev = 0)

/-- A listener called with the payload of an event: an absent payload
(`undefined`) makes the property access, or the destructuring, of the first
line raise a `TypeError`. -/
def onPayload {α : Type} (handler : α → ChatState → Except JsError ChatState)
    (payload : Option α) (state : ChatState) : Except JsError ChatState :=
  match payload with
  | none => .error .typeError
  | some p => handler p state

/-- The `newMessage` listener on a payload that may be absent. -/
def newMessageListener (selectedUser : User) (payload : Option Message) (state : ChatState) :
    Except JsError ChatState :=
  onPayload (fun m st => .ok (newMessageHandler selectedUser m st)) payload state

/-- The `userTyping` listener on a payload that may be absent. -/
def userTypingListener (selectedUser : User) (payload : Option UserTypingEvent)
    (state : ChatState) : Except JsError ChatState :=
  onPayload (fun ev st => .ok (userTypingHandler selectedUser ev st)) payload state

/-- The `messageReaction` listener on a payload that may be absent. -/
def messageReactionListener (payload : Option MessageReactionEvent) (state : ChatState) :
    Except JsError ChatState :=
  onPayload (fun ev st => .ok (messageReactionHandler ev st)) payload state

/-- The `messageDelivered` listener on a payload that may be absent. -/
def messageDeliveredListener (payload : Option MessageDeliveredEvent) (state : ChatState) :
    Except JsError ChatState :=
  onPayload (fun ev st => .ok (messageDeliveredHandler ev st)) payload state

/-- The `messagesRead` listener on a payload that may be absent. -/
def messagesReadListener (selectedUser : User) (authUser : Option User)
    (payload : Option MessagesReadEvent) (state : ChatState) : Except JsError ChatState :=
  onPayload (messagesReadHandler selectedUser authUser) payload state

/-! ## Reactions -/

/-- The property key that a primitive is converted to in `object[key]`.  A
number is printed in decimal, as JavaScript prints an integer whose absolute
value is below `10^21`; the user ids of the application are strings. -/
def propertyKey : JsVal → String
  | .undefined => "undefined"
  | .null => "null"
  | .bool b => if b then "true" else "false"
  | .num n => toString n
  | .str s => s

/-- The JavaScript `message.reactions?.[userId]`: the emoji stored under the key,
or `undefined`. -/
def reactionOf (message : Message) (userId : JsVal) : JsVal :=
  match message.reactions.lookup (propertyKey userId) with
  | some emoji => .str emoji
  | none => .undefined

/-- The JavaScript `v?.toString()` on a primitive. -/
def optionalToString : JsVal → JsVal
  | .undefined => .undefined
  | .null => .undefined
  | v => .str (propertyKey v)

/-- The `userReaction` of the `Message` component:
`message.reactions?.[authUser._id] || message.reactions?.[authUser._id?.toString()]`. -/
def userReaction (authUser : User) (message : Message) : JsVal :=
  (reactionOf message authUser._id).or (reactionOf message (optionalToString authUser._id))

/-- The store action that a reaction click calls. -/
inductive ReactionCall where
  | removeReaction (messageId : JsVal)
  | addReaction (messageId : JsVal) (emoji : String)
  deriving DecidableEq, Repr

/-- `handleReactionClick` of the `Message` component. -/
def handleReactionClick (authUser : User) (message : Message) (emoji : String) : ReactionCall :=
  if userReaction authUser message = .str emoji then .removeReaction message._id
  else .addReaction message._id emoji

/-- What a reaction action has done when it reaches its `await` or returns
before it. -/
inductive ReactionStart where
  | returned
  | caught (toast : String)
  | requested (messageId : JsVal) (emoji : JsVal)
  deriving DecidableEq, Repr

/-- The way the reaction request settles; `reactions` is `res.data.reactions`. -/
inductive ReactionResult where
  | resolved (reactions : List (String × String))
  | rejected
  deriving DecidableEq, Repr

/-- What a reaction action has done when it returns after its `await`. -/
structure ReactionEnd where
  state : ChatState
  toast : Option String
  deriving DecidableEq, Repr

/-- `addReaction` up to its `await`: the request is always issued. -/
def addReactionStart (messageId : JsVal) (emoji : String) : ReactionStart :=
  .requested messageId (.str emoji)

/-- `addReaction` after its `await`. -/
def addReactionEnd (messageId : JsVal) (result : ReactionResult) (state : ChatState) :
    ReactionEnd :=
  match result with
  | .resolved reactions =>
    { state :=
        { state with
          messages :=
            state.messages.map (fun m =>
              if m._id = messageId then { m with reactions := reactions } else m) }
      toast := none }
  | .rejected => { state := state, toast := some "Failed to add reaction" }

/-- `removeReaction` up to its `await`: it returns when the store has no
message with the id, or when the local user has no reaction on it; reading
`authUser._id` with no authenticated user raises inside the `try` block and
the `catch` block shows the toast; otherwise it posts the emoji of the user.
A message of this model always has a reactions map; for a message object
without a `reactions` field the optional chain `message.reactions?.[...]` of
the code stops before `authUser` is read, and the action returns. -/
def removeReactionStart (authUser : Option User) (messageId : JsVal) (state : ChatState) :
    ReactionStart :=
  match state.messages.find? (fun m => decide (m._id = messageId)) with
  | none => .returned
  | some message =>
    match authUser with
    | none => .caught "Failed to remove reaction"
    | some authUser =>
      if (reactionOf message authUser._id).truthy then
        .requested messageId (reactionOf message authUser._id)
      else .returned

/-- `removeReaction` after its `await`. -/
def removeReactionEnd (messageId : JsVal) (result : ReactionResult) (state : ChatState) :
    ReactionEnd :=
  match result with
  | .resolved reactions =>
    { state :=
        { state with
          messages :=
            state.messages.map (fun m =>
              if m._id = messageId then { m with reactions := reactions } else m) }
      toast := none }
  | .rejected => { state := state, toast := some "Failed to remove reaction" }

/-! ## Attachments of `MessageInput` -/

/-- A `File` picked in a file input: its name, MIME type and size in bytes. -/
structure FileObj where
  name : String
  type : String
  size : Nat
  deriving DecidableEq, Repr

/-- The attachment state of `MessageInput`. -/
structure InputState where
  imageFile : Option FileObj
  videoFile : Option FileObj
  imagePreview : Option String
  videoPreview : Option String
  deriving DecidableEq, Repr

/-- The state of a freshly mounted `MessageInput`: no attachment. -/
def InputState.empty : InputState :=
  { imageFile := none, videoFile := none, imagePreview := none, videoPreview := none }

/-- The JavaScript `text.startsWith(start)`. -/
def jsStartsWith (text start : String) : Bool :=
  start.data.isPrefixOf text.data

/-- `handleImageChange`: the new state and the toast shown on rejection.
`file` is `e.target.files[0]`, absent when no file was picked. -/
def handleImageChange (file : Option FileObj) (s : InputState) : InputState × Option String :=
  match file with
  | none => (s, none)
  | some file =>
    if !jsStartsWith file.type "image/" then (s, some "Please select an image file")
    else if file.size > 10 * 1024 * 1024 then (s, some "Image size should be less than 10MB")
    else ({ s with imageFile := some file, videoFile := none, videoPreview := none }, none)

/-- `handleVideoChange`: the new state and the toast shown on rejection. -/
def handleVideoChange (file : Option FileObj) (s : InputState) : InputState × Option String :=
  match file with
  | none => (s, none)
  | some file =>
    if !jsStartsWith file.type "video/" then (s, some "Please select a video file")
    else if file.size > 50 * 1024 * 1024 then (s, some "Video size should be less than 50MB")
    else ({ s with videoFile := some file, imageFile := none, imagePreview := none }, none)

/-- What can happen to the attachment state: a change of either file input,
either remove button, the `onloadend` of either `FileReader`, and the reset at
the end of `handleSendMessage`. -/
inductive InputAction where
  | imageChange (file : Option FileObj)
  | videoChange (file : Option FileObj)
  | removeImage
  | removeVideo
  | imageLoaded (result : String)
  | videoLoaded (result : String)
  | sent
  deriving DecidableEq, Repr

/-- One action on the attachment state. -/
def applyInput (s : InputState) : InputAction → InputState
  | .imageChange file => (handleImageChange file s).1
  | .videoChange file => (handleVideoChange file s).1
  | .removeImage => { s with imagePreview := none, imageFile := none }
  | .removeVideo => { s with videoPreview := none, videoFile := none }
  | .imageLoaded result => { s with imagePreview := some result }
  | .videoLoaded result => { s with videoPreview := some result }
  | .sent => { imageFile := none, videoFile := none, imagePreview := none, videoPreview := none }

/-- At most one of `imageFile` and `videoFile` is set. -/
def atMostOneFile (s : InputState) : Prop :=
  s.imageFile = none ∨ s.videoFile = none

/-! ## Date groups of `ChatContainer` -/

/-- A group of `groupMessagesByDate`. -/
structure DateGroup where
  date : String
  dateLabel : String
  messages : List Message
  deriving DecidableEq, Repr

/-- The variables of the loop of `groupMessagesByDate`: `groups` is `pushed`
followed by `currentGroup`, which the loop keeps as the last element of
`groups` and extends in place. -/
structure GroupingState where
  pushed : List DateGroup
  currentGroup : Option DateGroup
  deriving DecidableEq, Repr

/-- The array `groups` of the loop. -/
def GroupingState.groups (st : GroupingState) : List DateGroup :=
  st.pushed ++ st.currentGroup.toList

/-- One iteration of the `forEach` of `groupMessagesByDate`.  `dateKeyOf` is
`new Date(createdAt).toDateString()` and `dateLabelOf` is
`formatDateLabel(new Date(createdAt))`; both depend on the time zone and the
clock of the browser and are parameters. -/
def groupStep (dateKeyOf dateLabelOf : String → String) (st : GroupingState)
    (message : Message) : GroupingState :=
  let dateKey := dateKeyOf message.createdAt
  match st.currentGroup with
  | none =>
    { pushed := st.pushed
      currentGroup :=
        some { date := dateKey, dateLabel := dateLabelOf message.createdAt, messages := [message] } }
  | some g =>
    if g.date ≠ dateKey then
      { pushed := st.pushed ++ [g]
        currentGroup :=
          some { date := dateKey, dateLabel := dateLabelOf message.createdAt,
                 messages := [message] } }
    else { st with currentGroup := some { g with messages := g.messages ++ [message] } }

/-- `groupMessagesByDate` of `ChatContainer`. -/
def groupMessagesByDate (dateKeyOf dateLabelOf : String → String) (messages : List Message) :
    List DateGroup :=
  (messages.foldl (groupStep dateKeyOf dateLabelOf)
    { pushed := [], currentGroup := none }).groups

/-- Every group is non-empty and holds messages of its date key only, and
adjacent groups have different date keys. -/
def wellGrouped (dateKeyOf : String → String) (gs : List DateGroup) : Prop :=
  (∀ g ∈ gs, g.messages ≠ [] ∧ ∀ m ∈ g.messages, dateKeyOf m.createdAt = g.date) ∧
  gs.Chain' (fun a b => a.date ≠ b.date)

/-- The messages of a list of groups, in order. -/
def groupedMessages (gs : List DateGroup) : List Message :=
  (gs.map (fun g => g.messages)).flatten

/-! ## The typing effect of `MessageInput`

The effect has the dependencies `text` and `isTyping` (the two store actions
are stable), so it runs after every render in which one of them changed, its
cleanup running first.  Time is the clock in milliseconds at which an event is
handled; rendering takes no time.  A selected peer and a socket are present,
so `sendTypingIndicator` and `stopTypingIndicator` emit their signal. -/

/-- The signals emitted by `sendTypingIndicator` and `stopTypingIndicator`. -/
inductive TypingSignal where
  | typing
  | stopTyping
  deriving DecidableEq, Repr

/-- The state of the typing effect: the `text` and `isTyping` states, the
pending timeout of `typingTimeoutRef` (its due time and the `isTyping` its
callback closed over), and the signals emitted so far with their times. -/
structure TypingState where
  text : String
  isTyping : Bool
  timer : Option (Nat × Bool)
  signals : List (Nat × TypingSignal)
  deriving DecidableEq, Repr

/-- One run of the effect at time `now`, the cleanup of the previous run
included: the pending timeout is cleared; when `text.trim() && !isTyping` the
effect calls `setIsTyping(true)` and emits `typing`; then it sets a timeout of
1000 ms whose callback closes over the `isTyping` of this render.  The second
component is the state update the run has queued. -/
def effectRun (now : Nat) (s : TypingState) : TypingState × Option Bool :=
  if ((JsVal.str (jsTrim s.text)).truthy && !s.isTyping) = true then
    ({ s with signals := s.signals ++ [(now, .typing)], timer := some (now + 1000, s.isTyping) },
      some true)
  else ({ s with timer := some (now + 1000, s.isTyping) }, none)

/-- A render whose dependencies changed, at time `now`: the effect runs, and
when it has queued `setIsTyping(v)` the component renders again with the new
`isTyping` and the effect runs once more. -/
def commitRender (now : Nat) (s : TypingState) : TypingState :=
  match effectRun now s with
  | (s1, some v) => (effectRun now { s1 with isTyping := v }).1
  | (s1, none) => s1

/-- Mounting `MessageInput` at time `now`: empty text, not typing. -/
def mountInput (now : Nat) : TypingState :=
  commitRender now { text := "", isTyping := false, timer := none, signals := [] }

/-- The pending timeout fires: when its callback closed over a true
`isTyping` it calls `setIsTyping(false)` and emits `stopTyping` at its due
time, and the change of `isTyping` makes the effect run again. -/
def fireTimer (s : TypingState) : TypingState :=
  match s.timer with
  | none => s
  | some (due, closedIsTyping) =>
    if closedIsTyping then
      if s.isTyping then
        commitRender due
          { s with timer := none, signals := s.signals ++ [(due, .stopTyping)], isTyping := false }
      else { s with timer := none, signals := s.signals ++ [(due, .stopTyping)] }
    else { s with timer := none }

/-- Time passes up to `time`: every timeout that is due fires, in order.  A
timeout set by a firing is due 1000 ms later, so `fuel` firings cover
`1000 * fuel` ms. -/
def advance : Nat → Nat → TypingState → TypingState
  | 0, _, s => s
  | fuel + 1, time, s =>
    match s.timer with
    | none => s
    | some (due, _) => if due ≤ time then advance fuel time (fireTimer s) else s

/-- A change of the text at time `now` (`setText`): a render, and so an effect
run, when the text differs from the current one. -/
def textChange (now : Nat) (text : String) (s : TypingState) : TypingState :=
  if text = s.text then s else commitRender now { s with text := text }

/-- The effect over a list of text changes `(time, text)` in time order, and
then up to the time `horizon`. -/
def runTyping (fuel : Nat) (changes : List (Nat × String)) (horizon : Nat)
    (s : TypingState) : TypingState :=
  advance fuel horizon
    (changes.foldl (fun st c => textChange c.1 c.2 (advance fuel c.1 st)) s)

/-! ## Properties -/

/-! ### Temporary ids -/

theorem digitValue_digitChar (k : Nat) (h : k < 10) : digitValue (Nat.digitChar k) = k := by
  interval_cases k <;> rfl

theorem readDigits_toDigitsCore : ∀ (fuel n : Nat) (ds : List Char), n < fuel →
    readDigits 0 (Nat.toDigitsCore 10 fuel n ds) = readDigits n ds := by
  intro fuel
  induction fuel with
  | zero => intro n ds h; omega
  | succ fuel ih =>
    intro n ds h
    simp only [Nat.toDigitsCore]
    split
    · rename_i h0
      simp only [readDigits, List.foldl_cons,
        digitValue_digitChar (n % 10) (Nat.mod_lt _ (by decide))]
      congr 1
      omega
    · rename_i h0
      rw [ih (n / 10) _ (by omega)]
      simp only [readDigits, List.foldl_cons,
        digitValue_digitChar (n % 10) (Nat.mod_lt _ (by decide))]
      congr 1
      omega

/-- Printing a natural number in decimal loses nothing. -/
theorem toString_nat_injective (a b : Nat) (h : toString a = toString b) : a = b := by
  have hd : Nat.toDigits 10 a = Nat.toDigits 10 b := by
    have := congrArg String.data h
    simpa [toString, Nat.repr, List.asString] using this
  have ha := readDigits_toDigitsCore (a + 1) a [] (by omega)
  have hb := readDigits_toDigitsCore (b + 1) b [] (by omega)
  simp only [Nat.toDigits] at hd
  rw [hd, hb] at ha
  simpa [readDigits] using ha.symm

/-- Temporary ids of different clock readings differ. -/
theorem tempId_injective (a b : Nat) (h : tempId a = tempId b) : a = b := by
  simp only [tempId, JsVal.str.injEq] at h
  apply toString_nat_injective
  have := congrArg String.data h
  simp only [String.data_append, List.append_cancel_left_eq] at this
  exact String.ext this

/-- A temporary id is not a string shorter than its `temp-` tag. -/
theorem tempId_ne_short (now : Nat) (s : String) (hs : s.length < 5) : tempId now ≠ .str s := by
  intro h
  simp only [tempId, JsVal.str.injEq] at h
  have := congrArg String.length h
  simp only [String.length_append] at this
  have h5 : "temp-".length = 5 := by decide
  omega

/-! ### The `newMessage` handler -/

/-- A second run of the `newMessage` handler with the same payload returns the
state of the first run. -/
theorem newMessageHandler_twice (selectedUser : User) (m : Message) (state : ChatState) :
    newMessageHandler selectedUser m (newMessageHandler selectedUser m state)
      = newMessageHandler selectedUser m state := by
  unfold newMessageHandler
  by_cases hrel : (decide (m.senderId = selectedUser._id) ||
      decide (m.receiverId = selectedUser._id)) = true
  · by_cases hex : state.messages.any (fun x => decide (x._id = m._id)) = true
    · simp [hrel, hex]
    · simp [hrel, hex]
  · simp [hrel]

/-- C1: for every store state and every `newMessage` payload, running the
handler twice with the same payload leaves the same messages list as running
it once. -/
theorem newMessage_idempotent (selectedUser : User) (m : Message) (state : ChatState) :
    (newMessageHandler selectedUser m (newMessageHandler selectedUser m state)).messages
      = (newMessageHandler selectedUser m state).messages := by
  rw [newMessageHandler_twice]

/-- A relevant payload with an unseen id is appended at the end. -/
theorem newMessageHandler_append (selectedUser : User) (m : Message) (state : ChatState)
    (hrel : m.senderId = selectedUser._id ∨ m.receiverId = selectedUser._id)
    (hnew : m._id ∉ ids state.messages) :
    newMessageHandler selectedUser m state = { state with messages := state.messages ++ [m] } := by
  have hex : state.messages.any (fun x => decide (x._id = m._id)) = false := by
    rw [Bool.eq_false_iff]
    intro h
    simp only [List.any_eq_true, decide_eq_true_eq] at h
    obtain ⟨x, hx, hxm⟩ := h
    exact hnew (by simp only [ids, List.mem_map]; exact ⟨x, hx, hxm⟩)
  have hr : (decide (m.senderId = selectedUser._id) ||
      decide (m.receiverId = selectedUser._id)) = true := by
    simpa using hrel
  simp [newMessageHandler, hr, hex]

/-- Repeating an idempotent handler is running it once. -/
theorem repeatHandler_idempotent (h : ChatState → ChatState) (hh : ∀ s, h (h s) = h s)
    (n : Nat) (s : ChatState) : repeatHandler h (n + 1) s = h s := by
  induction n generalizing s with
  | zero => rfl
  | succ n ih =>
    have : repeatHandler h (n + 1 + 1) s = repeatHandler h (n + 1) (h s) := rfl
    rw [this, ih, hh]

/-! ### `sendMessage` -/

/-- C2: after the `catch` branch of `sendMessage` no message of the list has
the temporary id (in particular no optimistic one), and the list is the
messages with another id in their original relative order: it is a sublist of
the previous list, and every sublist of the previous list that avoids the
temporary id is a sublist of it. -/
theorem sendMessage_failure_rollback (t : JsVal) (state : ChatState) :
    (∀ m ∈ (sendMessageFailure t state).messages, m._id ≠ t) ∧
    (∀ m ∈ (sendMessageFailure t state).messages, ¬ (m.isOptimistic = true ∧ m._id = t)) ∧
    (sendMessageFailure t state).messages.Sublist state.messages ∧
    (∀ l : List Message, l.Sublist state.messages → (∀ m ∈ l, m._id ≠ t) →
      l.Sublist (sendMessageFailure t state).messages) ∧
    (∀ m ∈ state.messages, m._id ≠ t → m ∈ (sendMessageFailure t state).messages) := by
  refine ⟨?_, ?_, ?_, ?_, ?_⟩
  · intro m hm
    simp only [sendMessageFailure, List.mem_filter, decide_eq_true_eq] at hm
    exact hm.2
  · intro m hm
    simp only [sendMessageFailure, List.mem_filter, decide_eq_true_eq] at hm
    exact fun h => hm.2 h.2
  · exact List.filter_sublist _
  · intro l hl hall
    have h1 : (l.filter (fun m => decide (m._id ≠ t))).Sublist
        (state.messages.filter (fun m => decide (m._id ≠ t))) := hl.filter _
    have h2 : l.filter (fun m => decide (m._id ≠ t)) = l := by
      rw [List.filter_eq_self]
      intro m hm
      simpa using hall m hm
    rw [h2] at h1
    exact h1
  · intro m hm hne
    simp only [sendMessageFailure, List.mem_filter, decide_eq_true_eq]
    exact ⟨hm, hne⟩

/-- C3: when the optimistic message with temporary id `t` sits at index `k` and
no other index holds a message with id `t`, the success branch of
`sendMessage` with server message `s` leaves the list length unchanged, puts
exactly `s` at index `k`, and leaves every other index as it was. -/
theorem sendMessage_success_in_place (t : JsVal) (s : Message) (state : ChatState) (k : Nat)
    (hk : ∃ m, state.messages[k]? = some m ∧ m._id = t)
    (honly : ∀ j m, j ≠ k → state.messages[j]? = some m → m._id ≠ t) :
    (sendMessageSuccess t s state).messages.length = state.messages.length ∧
    (sendMessageSuccess t s state).messages[k]? = some s ∧
    ∀ j, j ≠ k → (sendMessageSuccess t s state).messages[j]? = state.messages[j]? := by
  obtain ⟨m, hm, hmt⟩ := hk
  refine ⟨?_, ?_, ?_⟩
  · simp [sendMessageSuccess]
  · simp [sendMessageSuccess, List.getElem?_map, hm, hmt]
  · intro j hj
    simp only [sendMessageSuccess, List.getElem?_map]
    cases hg : state.messages[j]? with
    | none => rfl
    | some x =>
      have := honly j x hj hg
      simp [this]

/-- Witness of C3: the store `[1, temp-5]` with the optimistic message at
index 1, confirmed with the server message of id `9`. -/
theorem sendMessage_success_in_place_witness :
    (sendMessageSuccess (tempId 5) (sampleMessage "9" "me" "P" "T2")
        (sampleState "P" [sampleMessage "1" "P" "me" "T0",
          optimisticMessage 5 "T1" ⟨.str "me"⟩ ⟨.str "P"⟩
            ⟨.str "yo", .null, .null, .null, .null, .undefined⟩])).messages
      = [sampleMessage "1" "P" "me" "T0", sampleMessage "9" "me" "P" "T2"] := by
  have h := sendMessage_success_in_place (tempId 5) (sampleMessage "9" "me" "P" "T2")
    (sampleState "P" [sampleMessage "1" "P" "me" "T0",
      optimisticMessage 5 "T1" ⟨.str "me"⟩ ⟨.str "P"⟩
        ⟨.str "yo", .null, .null, .null, .null, .undefined⟩]) 1
    ⟨_, rfl, rfl⟩
    (by
      intro j m hj hm
      match j, hj, hm with
      | 0, _, hm =>
        simp only [sampleState, List.getElem?_cons_zero, Option.some.injEq] at hm
        subst hm
        decide
      | j + 2, _, hm => simp [sampleState] at hm)
  apply List.ext_getElem?
  intro j
  match j with
  | 0 => rw [h.2.2 0 (by decide)]; rfl
  | 1 => rw [h.2.1]; rfl
  | j + 2 => rw [h.2.2 (j + 2) (by omega)]; rfl

/-- The success branch keeps the ids pairwise distinct when the id of the
server message is not the id of a message other than the optimistic one. -/
theorem sendMessageSuccess_distinctIds (t : JsVal) (s : Message) (state : ChatState)
    (hd : distinctIds state.messages)
    (hfresh : ∀ m ∈ state.messages, m._id ≠ t → m._id ≠ s._id) :
    distinctIds (sendMessageSuccess t s state).messages := by
  obtain ⟨l, sel, ld, ty⟩ := state
  simp only [sendMessageSuccess, distinctIds, ids] at *
  induction l with
  | nil => simp
  | cons a l ih =>
    simp only [List.map_cons, List.nodup_cons, List.mem_map, not_exists, not_and] at hd ⊢
    refine ⟨?_, ih hd.2 (fun m hm => hfresh m (List.mem_cons_of_mem _ hm))⟩
    rintro y ⟨x, hx, rfl⟩
    by_cases hat : a._id = t
    · have hxt : x._id ≠ t := fun h => hd.1 x hx (by rw [h, hat])
      simp only [hat, hxt, if_true, if_false]
      exact fun h => hfresh x (List.mem_cons_of_mem _ hx) hxt h
    · by_cases hxt : x._id = t
      · simp only [hat, hxt, if_true, if_false]
        exact fun h => hfresh a (List.mem_cons_self _ _) hat h.symm
      · simp only [hat, hxt, if_false]
        exact hd.1 x hx

/-- C4 (failing input): a send is started at clock reading 5 in the empty
conversation with peer `P`; the `newMessage` event of the stored message (id
`7`, from the local user to `P`) is handled before the POST request resolves
with that same message.  Before the success branch the ids are pairwise
distinct and the temporary id is in the list; after it the list holds the
message of id `7` twice. -/
theorem sendMessage_success_after_echo_duplicates :
    sendMessageBegin 5 "T1" (some ⟨.str "me"⟩) sampleDraft (sampleState "P" [])
      = some (tempId 5, ⟨.str "P"⟩,
          sampleState "P" [optimisticMessage 5 "T1" ⟨.str "me"⟩ ⟨.str "P"⟩ sampleDraft]) ∧
    newMessageHandler ⟨.str "P"⟩ (sampleMessage "7" "me" "P" "T1")
        (sampleState "P" [optimisticMessage 5 "T1" ⟨.str "me"⟩ ⟨.str "P"⟩ sampleDraft])
      = sampleState "P" [optimisticMessage 5 "T1" ⟨.str "me"⟩ ⟨.str "P"⟩ sampleDraft,
          sampleMessage "7" "me" "P" "T1"] ∧
    distinctIds [optimisticMessage 5 "T1" ⟨.str "me"⟩ ⟨.str "P"⟩ sampleDraft,
      sampleMessage "7" "me" "P" "T1"] ∧
    tempId 5 ∈ ids [optimisticMessage 5 "T1" ⟨.str "me"⟩ ⟨.str "P"⟩ sampleDraft,
      sampleMessage "7" "me" "P" "T1"] ∧
    (sendMessageSuccess (tempId 5) (sampleMessage "7" "me" "P" "T1")
        (sampleState "P" [optimisticMessage 5 "T1" ⟨.str "me"⟩ ⟨.str "P"⟩ sampleDraft,
          sampleMessage "7" "me" "P" "T1"])).messages
      = [sampleMessage "7" "me" "P" "T1", sampleMessage "7" "me" "P" "T1"] ∧
    ¬ distinctIds [sampleMessage "7" "me" "P" "T1", sampleMessage "7" "me" "P" "T1"] := by
  refine ⟨by decide, by decide, by decide, by decide, by decide, by decide⟩

/-- C5 (counterexample): two sends started at the same clock reading 5 get the
same temporary id, and the store then holds two messages with it. -/
theorem sendMessage_same_clock_same_tempId :
    sendMessageBegin 5 "T1" (some ⟨.str "me"⟩) sampleDraft (sampleState "P" [])
      = some (tempId 5, ⟨.str "P"⟩,
          sampleState "P" [optimisticMessage 5 "T1" ⟨.str "me"⟩ ⟨.str "P"⟩ sampleDraft]) ∧
    sendMessageBegin 5 "T1" (some ⟨.str "me"⟩) sampleDraft
        (sampleState "P" [optimisticMessage 5 "T1" ⟨.str "me"⟩ ⟨.str "P"⟩ sampleDraft])
      = some (tempId 5, ⟨.str "P"⟩,
          sampleState "P" [optimisticMessage 5 "T1" ⟨.str "me"⟩ ⟨.str "P"⟩ sampleDraft,
            optimisticMessage 5 "T1" ⟨.str "me"⟩ ⟨.str "P"⟩ sampleDraft]) ∧
    countId (tempId 5)
        [optimisticMessage 5 "T1" ⟨.str "me"⟩ ⟨.str "P"⟩ sampleDraft,
          optimisticMessage 5 "T1" ⟨.str "me"⟩ ⟨.str "P"⟩ sampleDraft] = 2 := by
  refine ⟨by decide, by decide, by decide⟩

/-- C5 (amended): two sends in flight at the same time that were started at
different clock readings use different temporary ids; when no message of the
store had either id before, each of the two ids is carried by exactly one
message after both optimistic inserts. -/
theorem sendMessage_distinct_clock_distinct_tempId (now₁ now₂ : Nat) (c₁ c₂ : String)
    (authUser peer : User) (d₁ d₂ : MessageData) (state : ChatState)
    (hsel : state.selectedUser = some peer) (hclock : now₁ ≠ now₂) :
    ∃ s₁ s₂,
      sendMessageBegin now₁ c₁ (some authUser) d₁ state = some (tempId now₁, peer, s₁) ∧
      sendMessageBegin now₂ c₂ (some authUser) d₂ s₁ = some (tempId now₂, peer, s₂) ∧
      tempId now₁ ≠ tempId now₂ ∧
      ((∀ m ∈ state.messages, m._id ≠ tempId now₁ ∧ m._id ≠ tempId now₂) →
        countId (tempId now₁) s₂.messages = 1 ∧ countId (tempId now₂) s₂.messages = 1) := by
  have hne : tempId now₁ ≠ tempId now₂ := fun h => hclock (tempId_injective _ _ h)
  refine ⟨{ state with
      messages := state.messages ++ [optimisticMessage now₁ c₁ authUser peer d₁] },
    { state with
      messages := state.messages ++ [optimisticMessage now₁ c₁ authUser peer d₁] ++
        [optimisticMessage now₂ c₂ authUser peer d₂] }, ?_, ?_, hne, ?_⟩
  · simp only [sendMessageBegin, hsel]
  · simp only [sendMessageBegin, hsel]
  · intro hfresh
    have h0 : ∀ t, (∀ m ∈ state.messages, m._id ≠ t) →
        List.countP (fun m => decide (m._id = t)) state.messages = 0 := by
      intro t ht
      rw [List.countP_eq_zero]
      intro m hm
      simpa using ht m hm
    have h1 := h0 _ (fun m hm => (hfresh m hm).1)
    have h2 := h0 _ (fun m hm => (hfresh m hm).2)
    simp only [countId, List.countP_append, List.countP_cons, List.countP_nil, h1, h2,
      optimisticMessage, hne, hne.symm, decide_True, decide_False, if_true]
    simp

/-- Witness of the amended C5: sends started at clock readings 5 and 6 in the
empty conversation with peer `P`. -/
theorem sendMessage_distinct_clock_distinct_tempId_witness :
    ∃ s₁ s₂,
      sendMessageBegin 5 "T1" (some ⟨.str "me"⟩) sampleDraft (sampleState "P" [])
        = some (tempId 5, ⟨.str "P"⟩, s₁) ∧
      sendMessageBegin 6 "T2" (some ⟨.str "me"⟩) sampleDraft s₁
        = some (tempId 6, ⟨.str "P"⟩, s₂) ∧
      tempId 5 ≠ tempId 6 ∧
      ((∀ m ∈ (sampleState "P" []).messages, m._id ≠ tempId 5 ∧ m._id ≠ tempId 6) →
        countId (tempId 5) s₂.messages = 1 ∧ countId (tempId 6) s₂.messages = 1) :=
  sendMessage_distinct_clock_distinct_tempId 5 6 "T1" "T2" ⟨.str "me"⟩ ⟨.str "P"⟩
    sampleDraft sampleDraft (sampleState "P" []) rfl (by decide)

/-! ### Display order -/

/-- C6 (counterexample): the store holds one message created on 2 January (a
sorted list); the `newMessage` event of the selected peer carries an unseen id
and a message created on 1 January; the handler appends it, and the list is no
longer ascending in `createdAt`. -/
theorem newMessage_append_breaks_order :
    sortedByCreatedAt [sampleMessage "1" "P" "me" "2024-01-02T00:00:00.000Z"] ∧
    (sampleMessage "2" "P" "me" "2024-01-01T00:00:00.000Z").senderId = JsVal.str "P" ∧
    (sampleMessage "2" "P" "me" "2024-01-01T00:00:00.000Z")._id
      ∉ ids [sampleMessage "1" "P" "me" "2024-01-02T00:00:00.000Z"] ∧
    (newMessageHandler ⟨.str "P"⟩ (sampleMessage "2" "P" "me" "2024-01-01T00:00:00.000Z")
        (sampleState "P" [sampleMessage "1" "P" "me" "2024-01-02T00:00:00.000Z"])).messages
      = [sampleMessage "1" "P" "me" "2024-01-02T00:00:00.000Z",
          sampleMessage "2" "P" "me" "2024-01-01T00:00:00.000Z"] ∧
    ¬ sortedByCreatedAt
      (newMessageHandler ⟨.str "P"⟩ (sampleMessage "2" "P" "me" "2024-01-01T00:00:00.000Z")
        (sampleState "P" [sampleMessage "1" "P" "me" "2024-01-02T00:00:00.000Z"])).messages := by
  have hmsgs : (newMessageHandler ⟨.str "P"⟩
      (sampleMessage "2" "P" "me" "2024-01-01T00:00:00.000Z")
      (sampleState "P" [sampleMessage "1" "P" "me" "2024-01-02T00:00:00.000Z"])).messages
      = [sampleMessage "1" "P" "me" "2024-01-02T00:00:00.000Z",
          sampleMessage "2" "P" "me" "2024-01-01T00:00:00.000Z"] := by decide
  refine ⟨?_, rfl, by decide, hmsgs, ?_⟩
  · simp [sortedByCreatedAt]
  · rw [hmsgs]
    simp only [sortedByCreatedAt, List.pairwise_cons, List.mem_singleton, forall_eq,
      sampleMessage, List.not_mem_nil, false_implies, implies_true, List.Pairwise.nil, and_true]
    rw [String.le_iff_toList_le]
    decide

/-- C6 (amended): for a messages list ascending in `createdAt` and a
`newMessage` event of the active conversation whose `_id` is not in the list,
the handler appends the message at the end, after the messages already there
in their order; the resulting list is ascending in `createdAt` exactly when no
message already in the list has a later `createdAt` than the new one. -/
theorem newMessage_append_sorted_iff (selectedUser : User) (m : Message) (state : ChatState)
    (hsorted : sortedByCreatedAt state.messages)
    (hrel : m.senderId = selectedUser._id ∨ m.receiverId = selectedUser._id)
    (hnew : m._id ∉ ids state.messages) :
    (newMessageHandler selectedUser m state).messages = state.messages ++ [m] ∧
    (sortedByCreatedAt (newMessageHandler selectedUser m state).messages ↔
      ∀ x ∈ state.messages, x.createdAt ≤ m.createdAt) := by
  rw [newMessageHandler_append selectedUser m state hrel hnew]
  refine ⟨rfl, ?_⟩
  simp only [sortedByCreatedAt, List.pairwise_append, List.pairwise_singleton,
    List.mem_singleton, forall_eq, true_and] at hsorted ⊢
  exact ⟨fun h => h.2, fun h => ⟨hsorted, h⟩⟩

/-- Witness of the amended C6: a message created on 2 January arrives in a
store holding one message created on 1 January, and the list stays ascending. -/
theorem newMessage_append_sorted_iff_witness :
    sortedByCreatedAt
      (newMessageHandler ⟨.str "P"⟩ (sampleMessage "2" "P" "me" "2024-01-02T00:00:00.000Z")
        (sampleState "P" [sampleMessage "1" "P" "me" "2024-01-01T00:00:00.000Z"])).messages :=
  (newMessage_append_sorted_iff ⟨.str "P"⟩
    (sampleMessage "2" "P" "me" "2024-01-02T00:00:00.000Z")
    (sampleState "P" [sampleMessage "1" "P" "me" "2024-01-01T00:00:00.000Z"])
    (by simp [sortedByCreatedAt, sampleState]) (Or.inl rfl) (by decide)).2.mpr (by
      intro x hx
      simp only [sampleState, List.mem_singleton] at hx
      subst hx
      simp only [sampleMessage]
      rw [String.le_iff_toList_le]
      decide)

/-! ### The scenario of the specification -/

/-- C7: peer `P` is selected, the history is the single message of id `1`, a
draft is sent, the `newMessage` event of id `2` for peer `P` is handled one or
more times while the send is in flight, and the send is confirmed with a
server message `S` whose id is neither `1` nor `2`: the final messages list is
`[message 1, S, message 2]`, with one message of id `2`. -/
theorem scenario_final_order (peer authUser : User) (m1 m2 S : Message) (now : Nat)
    (createdAt : String) (messageData : MessageData) (n : Nat) (state : ChatState)
    (h1 : m1._id = .str "1") (h2 : m2._id = .str "2")
    (hrel : m2.senderId = peer._id ∨ m2.receiverId = peer._id)
    (hS : S._id ≠ .str "1" ∧ S._id ≠ .str "2") :
    (scenario peer authUser [m1] now createdAt messageData m2 (n + 1) S state).map
        (fun s => s.messages) = some [m1, S, m2] ∧
    countId (.str "2") [m1, S, m2] = 1 := by
  have ht1 : tempId now ≠ .str "1" := tempId_ne_short now "1" (by decide)
  have ht2 : tempId now ≠ .str "2" := tempId_ne_short now "2" (by decide)
  have h12 : (JsVal.str "1") ≠ .str "2" := by decide
  constructor
  · simp only [scenario, sendMessageBegin, setSelectedUser, getMessagesByUserIdBegin,
      getMessagesByUserIdSuccess, Option.map_some']
    rw [repeatHandler_idempotent _ (newMessageHandler_twice peer m2) n,
      newMessageHandler_append peer m2 _ hrel
        (by simp [ids, optimisticMessage, h1, h2, h12.symm, ht2.symm])]
    simp [sendMessageSuccess, optimisticMessage, h1, h2, ht1.symm, ht2.symm]
  · simp [countId, h1, h2, h12, hS.2]

/-- Witness of C7: the scenario with concrete messages, the event of id `2`
delivered twice and the send confirmed with the server message of id `9`. -/
theorem scenario_final_order_witness :
    (scenario ⟨.str "P"⟩ ⟨.str "me"⟩ [sampleMessage "1" "P" "me" "T0"] 5 "T1" sampleDraft
        (sampleMessage "2" "P" "me" "T2") (1 + 1) (sampleMessage "9" "me" "P" "T1")
        ChatState.init).map (fun s => s.messages)
      = some [sampleMessage "1" "P" "me" "T0", sampleMessage "9" "me" "P" "T1",
          sampleMessage "2" "P" "me" "T2"] ∧
    countId (.str "2") [sampleMessage "1" "P" "me" "T0", sampleMessage "9" "me" "P" "T1",
      sampleMessage "2" "P" "me" "T2"] = 1 :=
  scenario_final_order ⟨.str "P"⟩ ⟨.str "me"⟩ (sampleMessage "1" "P" "me" "T0")
    (sampleMessage "2" "P" "me" "T2") (sampleMessage "9" "me" "P" "T1") 5 "T1" sampleDraft 1
    ChatState.init rfl rfl (Or.inl rfl) (by decide)

/-! ### Receipts -/

/-- The patch of the `messagesRead` handler leaves a message with a truthy
`readAt` as it is. -/
theorem markRead_of_read (authUser : User) (ev : MessagesReadEvent) (m : Message)
    (h : m.readAt.truthy = true) : markRead authUser ev m = m := by
  simp [markRead, h]

/-- C8: a message of the store whose `readAt` is set (a truthy value: a
non-empty timestamp) is left as it is by every `messagesRead` event, whatever
the `userId` and `readAt` of the event, the captured peer and the authenticated
user: the store after the event holds the same message at the same index, so
its `readAt` is unchanged. -/
theorem messagesRead_keeps_readAt (selectedUser : User) (authUser : Option User)
    (ev : MessagesReadEvent) (state : ChatState) (i : Nat) (m : Message)
    (hm : state.messages[i]? = some m) (hread : m.readAt.truthy = true) :
    (storeAfter state (messagesReadHandler selectedUser authUser ev state)).messages[i]?
      = some m ∧
    ((storeAfter state (messagesReadHandler selectedUser authUser ev state)).messages[i]?).map
      (fun x => x.readAt) = some m.readAt := by
  have key : (storeAfter state
      (messagesReadHandler selectedUser authUser ev state)).messages[i]? = some m := by
    unfold messagesReadHandler
    by_cases hu : ev.userId ≠ selectedUser._id
    · rw [if_pos hu]
      exact hm
    · rw [if_neg hu]
      cases authUser with
      | some au =>
        simp only [storeAfter, List.getElem?_map, hm, Option.map_some',
          markRead_of_read au ev m hread]
      | none =>
        cases hl : state.messages with
        | nil => rw [hl] at hm; simp at hm
        | cons a l =>
          simp only [storeAfter]
          exact hm
  exact ⟨key, by rw [key]; rfl⟩

/-- Witness of C8: a message read at `T5` and a later event of the selected
peer with the earlier timestamp `T3`. -/
theorem messagesRead_keeps_readAt_witness :
    ((storeAfter
        (sampleState "P" [{ sampleMessage "1" "me" "P" "T0" with readAt := .str "T5" }])
        (messagesReadHandler ⟨.str "P"⟩ (some ⟨.str "me"⟩) ⟨.str "P", .str "T3"⟩
          (sampleState "P"
            [{ sampleMessage "1" "me" "P" "T0" with readAt := .str "T5" }]))).messages[0]?).map
      (fun x => x.readAt) = some (JsVal.str "T5") :=
  (messagesRead_keeps_readAt ⟨.str "P"⟩ (some ⟨.str "me"⟩) ⟨.str "P", .str "T3"⟩
    (sampleState "P" [{ sampleMessage "1" "me" "P" "T0" with readAt := .str "T5" }]) 0
    { sampleMessage "1" "me" "P" "T0" with readAt := .str "T5" } rfl (by decide)).2

/-- C9: for a `messagesRead` event whose `userId` is the selected peer and an
authenticated local user, the handler returns a state whose messages list has
the same length; at every index, a message sent by the local user to `userId`
that lacks `readAt` (a falsy value) becomes the same message with the `readAt`
of the event, and every other message is unchanged; the rest of the state is
unchanged. -/
theorem messagesRead_bulk_patch (selectedUser authUser : User) (ev : MessagesReadEvent)
    (state : ChatState) (hpeer : ev.userId = selectedUser._id) :
    ∃ s, messagesReadHandler selectedUser (some authUser) ev state = .ok s ∧
      s.messages.length = state.messages.length ∧
      s.selectedUser = state.selectedUser ∧ s.typingUsers = state.typingUsers ∧
      ∀ (i : Nat) (m : Message), state.messages[i]? = some m →
        ((m.senderId = authUser._id ∧ m.receiverId = ev.userId ∧ m.readAt.truthy = false) →
          s.messages[i]? = some { m with readAt := ev.readAt }) ∧
        (¬ (m.senderId = authUser._id ∧ m.receiverId = ev.userId ∧ m.readAt.truthy = false) →
          s.messages[i]? = some m) := by
  refine ⟨{ state with messages := state.messages.map (markRead authUser ev) }, ?_, ?_, rfl,
    rfl, ?_⟩
  · simp [messagesReadHandler, hpeer]
  · simp
  · intro i m hm
    constructor
    · intro hc
      simp only [List.getElem?_map, hm, Option.map_some', markRead, hc, and_self, if_true]
    · intro hc
      simp only [List.getElem?_map, hm, Option.map_some', markRead, hc, if_false]

/-- Witness of C9: the local user `me` has sent one unread message to the
selected peer `P` and received one from `P`; the event marks the first as read
at `T3` and leaves the second as it was. -/
theorem messagesRead_bulk_patch_witness :
    messagesReadHandler ⟨.str "P"⟩ (some ⟨.str "me"⟩) ⟨.str "P", .str "T3"⟩
        (sampleState "P" [sampleMessage "1" "me" "P" "T0", sampleMessage "2" "P" "me" "T1"])
      = .ok (sampleState "P"
          [{ sampleMessage "1" "me" "P" "T0" with readAt := .str "T3" },
            sampleMessage "2" "P" "me" "T1"]) ∧
    ∃ s, messagesReadHandler ⟨.str "P"⟩ (some ⟨.str "me"⟩) ⟨.str "P", .str "T3"⟩
        (sampleState "P" [sampleMessage "1" "me" "P" "T0", sampleMessage "2" "P" "me" "T1"])
        = .ok s ∧ s.messages.length = 2 :=
  ⟨rfl,
    (messagesRead_bulk_patch ⟨.str "P"⟩ ⟨.str "me"⟩ ⟨.str "P", .str "T3"⟩
      (sampleState "P" [sampleMessage "1" "me" "P" "T0", sampleMessage "2" "P" "me" "T1"])
      rfl).imp (fun _ h => ⟨h.1, h.2.1⟩)⟩

/-- C10 (counterexample): the message of id `1` has `deliveredAt` set to `T1`;
the `messageDelivered` event for id `1` with `deliveredAt` `T2` overwrites it. -/
theorem messageDelivered_overwrites :
    ({ sampleMessage "1" "me" "P" "T0" with deliveredAt := .str "T1" } : Message).deliveredAt.truthy
      = true ∧
    (messageDeliveredHandler ⟨.str "1", .str "T2"⟩
        (sampleState "P"
          [{ sampleMessage "1" "me" "P" "T0" with deliveredAt := .str "T1" }])).messages
      = [{ sampleMessage "1" "me" "P" "T0" with deliveredAt := .str "T2" }] ∧
    ((messageDeliveredHandler ⟨.str "1", .str "T2"⟩
        (sampleState "P"
          [{ sampleMessage "1" "me" "P" "T0" with deliveredAt := .str "T1" }])).messages.map
      (fun m => m.deliveredAt)) ≠ [JsVal.str "T1"] := by
  refine ⟨by decide, by decide, by decide⟩

/-- C10 (amended): a `messageDelivered` event sets the `deliveredAt` of every
message with the id of the event to the `deliveredAt` of the event, whether or not the
message already had one, and changes no other field; a message with another id
is unchanged, and the list length is kept. -/
theorem messageDelivered_patch (ev : MessageDeliveredEvent) (state : ChatState) (i : Nat)
    (m : Message) (hm : state.messages[i]? = some m) :
    (messageDeliveredHandler ev state).messages.length = state.messages.length ∧
    (m._id = ev.messageId →
      (messageDeliveredHandler ev state).messages[i]?
        = some { m with deliveredAt := ev.deliveredAt }) ∧
    (m._id ≠ ev.messageId → (messageDeliveredHandler ev state).messages[i]? = some m) := by
  refine ⟨by simp [messageDeliveredHandler], ?_, ?_⟩
  · intro h
    simp only [messageDeliveredHandler, List.getElem?_map, hm, Option.map_some', h, if_true]
  · intro h
    simp only [messageDeliveredHandler, List.getElem?_map, hm, Option.map_some', h, if_false]

/-- Witness of the amended C10: the delivery receipt `T2` for the message of id
`1`, which had none. -/
theorem messageDelivered_patch_witness :
    (messageDeliveredHandler ⟨.str "1", .str "T2"⟩
        (sampleState "P" [sampleMessage "1" "me" "P" "T0"])).messages[0]?
      = some { sampleMessage "1" "me" "P" "T0" with deliveredAt := .str "T2" } :=
  (messageDelivered_patch ⟨.str "1", .str "T2"⟩
    (sampleState "P" [sampleMessage "1" "me" "P" "T0"]) 0 (sampleMessage "1" "me" "P" "T0")
    rfl).2.1 rfl

/-! ### Reactions, foreign events, typing -/

/-- C11: a `messageReaction` event sets the `reactions` of every message with
the id of the event to the map of the event and changes no other field; a
message with another id is unchanged; length, order and the rest of the state
are kept; when no message has that id the messages list is the same list. -/
theorem messageReaction_patch (ev : MessageReactionEvent) (state : ChatState) :
    (messageReactionHandler ev state).messages.length = state.messages.length ∧
    (∀ (i : Nat) (m : Message), state.messages[i]? = some m →
      (m._id = ev.messageId →
        (messageReactionHandler ev state).messages[i]?
          = some { m with reactions := ev.reactions }) ∧
      (m._id ≠ ev.messageId → (messageReactionHandler ev state).messages[i]? = some m)) ∧
    ((∀ m ∈ state.messages, m._id ≠ ev.messageId) →
      (messageReactionHandler ev state).messages = state.messages) ∧
    (messageReactionHandler ev state).selectedUser = state.selectedUser ∧
    (messageReactionHandler ev state).typingUsers = state.typingUsers := by
  refine ⟨by simp [messageReactionHandler], ?_, ?_, rfl, rfl⟩
  · intro i m hm
    constructor
    · intro h
      simp only [messageReactionHandler, List.getElem?_map, hm, Option.map_some', h, if_true]
    · intro h
      simp only [messageReactionHandler, List.getElem?_map, hm, Option.map_some', h, if_false]
  · intro h
    simp only [messageReactionHandler]
    conv_rhs => rw [← List.map_id state.messages]
    apply List.map_congr_left
    intro m hm
    simp [h m hm]

/-- C12: an event of a peer other than the captured one changes nothing: a
`newMessage` whose `senderId` and `receiverId` both differ from the id of the
peer, and a `userTyping` or `messagesRead` event whose `userId` differs from
it, leave the whole state (messages and typing users) as it was; the
`messagesRead` handler does not raise either. -/
theorem foreign_event_ignored (selectedUser : User) (authUser : Option User) (m : Message)
    (typing : UserTypingEvent) (read : MessagesReadEvent) (state : ChatState)
    (hm : m.senderId ≠ selectedUser._id ∧ m.receiverId ≠ selectedUser._id)
    (htyping : typing.userId ≠ selectedUser._id) (hread : read.userId ≠ selectedUser._id) :
    newMessageHandler selectedUser m state = state ∧
    userTypingHandler selectedUser typing state = state ∧
    messagesReadHandler selectedUser authUser read state = .ok state := by
  refine ⟨?_, ?_, ?_⟩
  · simp [newMessageHandler, hm.1, hm.2]
  · simp [userTypingHandler, htyping]
  · simp [messagesReadHandler, hread]

/-- Witness of C12: peer `P` is selected and the three events belong to `Q`. -/
theorem foreign_event_ignored_witness :
    newMessageHandler ⟨.str "P"⟩ (sampleMessage "2" "Q" "me" "T1")
        (sampleState "P" [sampleMessage "1" "P" "me" "T0"])
      = sampleState "P" [sampleMessage "1" "P" "me" "T0"] ∧
    userTypingHandler ⟨.str "P"⟩ ⟨.str "Q", .bool true⟩
        (sampleState "P" [sampleMessage "1" "P" "me" "T0"])
      = sampleState "P" [sampleMessage "1" "P" "me" "T0"] ∧
    messagesReadHandler ⟨.str "P"⟩ (some ⟨.str "me"⟩) ⟨.str "Q", .str "T3"⟩
        (sampleState "P" [sampleMessage "1" "P" "me" "T0"])
      = .ok (sampleState "P" [sampleMessage "1" "P" "me" "T0"]) :=
  foreign_event_ignored ⟨.str "P"⟩ (some ⟨.str "me"⟩) (sampleMessage "2" "Q" "me" "T1")
    ⟨.str "Q", .bool true⟩ ⟨.str "Q", .str "T3"⟩
    (sampleState "P" [sampleMessage "1" "P" "me" "T0"]) (by decide) (by decide) (by decide)

/-- C13 (counterexample): the store holds the message of id `1` with text
`hi`; the `newMessage` event of the selected peer carries id `1` with text
`edited`; the stored message is not replaced. -/
theorem newMessage_known_id_not_replaced :
    (newMessageHandler ⟨.str "P"⟩ { sampleMessage "1" "P" "me" "T0" with text := .str "edited" }
        (sampleState "P" [sampleMessage "1" "P" "me" "T0"])).messages
      = [sampleMessage "1" "P" "me" "T0"] ∧
    (newMessageHandler ⟨.str "P"⟩ { sampleMessage "1" "P" "me" "T0" with text := .str "edited" }
        (sampleState "P" [sampleMessage "1" "P" "me" "T0"])).messages
      ≠ [{ sampleMessage "1" "P" "me" "T0" with text := .str "edited" }] := by
  refine ⟨by decide, by decide⟩

/-- C13 (amended): for a `newMessage` event of the active conversation, when
the `_id` is already in the store the event is dropped and the state is kept
as it was, the stored message included; when the `_id` is unseen the message
is inserted at the end of the list. -/
theorem newMessage_insert_if_unseen (selectedUser : User) (m : Message) (state : ChatState)
    (hrel : m.senderId = selectedUser._id ∨ m.receiverId = selectedUser._id) :
    (m._id ∈ ids state.messages → newMessageHandler selectedUser m state = state) ∧
    (m._id ∉ ids state.messages →
      (newMessageHandler selectedUser m state).messages = state.messages ++ [m]) := by
  constructor
  · intro hin
    simp only [ids, List.mem_map] at hin
    obtain ⟨x, hx, hxm⟩ := hin
    have hex : state.messages.any (fun y => decide (y._id = m._id)) = true := by
      simp only [List.any_eq_true, decide_eq_true_eq]
      exact ⟨x, hx, hxm⟩
    simp [newMessageHandler, hex]
  · intro hnew
    rw [newMessageHandler_append selectedUser m state hrel hnew]

/-- Witness of the amended C13: an event with the unseen id `2` is appended
after the message of id `1`. -/
theorem newMessage_insert_if_unseen_witness :
    (newMessageHandler ⟨.str "P"⟩ (sampleMessage "2" "P" "me" "T1")
        (sampleState "P" [sampleMessage "1" "P" "me" "T0"])).messages
      = [sampleMessage "1" "P" "me" "T0"] ++ [sampleMessage "2" "P" "me" "T1"] :=
  (newMessage_insert_if_unseen ⟨.str "P"⟩ (sampleMessage "2" "P" "me" "T1")
    (sampleState "P" [sampleMessage "1" "P" "me" "T0"]) (Or.inl rfl)).2 (by decide)

/-- C14: for a `userTyping` event of the selected peer, a truthy `isTyping`
leaves `typingUsers` as it was when the id is in it and appends the id
otherwise, so the id is in it afterwards; a falsy `isTyping` removes the id;
every other id occurs as often as before; a list without duplicates (as the
initial empty list is) stays without duplicates, and then holds the id exactly
once after a truthy event.  The messages list is not touched. -/
theorem userTyping_set_semantics (selectedUser : User) (ev : UserTypingEvent)
    (state : ChatState) (hpeer : ev.userId = selectedUser._id) :
    (ev.isTyping.truthy = true →
      ev.userId ∈ (userTypingHandler selectedUser ev state).typingUsers ∧
      (ev.userId ∈ state.typingUsers →
        (userTypingHandler selectedUser ev state).typingUsers = state.typingUsers) ∧
      (ev.userId ∉ state.typingUsers →
        (userTypingHandler selectedUser ev state).typingUsers
          = state.typingUsers ++ [ev.userId])) ∧
    (ev.isTyping.truthy = false →
      ev.userId ∉ (userTypingHandler selectedUser ev state).typingUsers) ∧
    (∀ x, x ≠ ev.userId →
      (userTypingHandler selectedUser ev state).typingUsers.count x
        = state.typingUsers.count x) ∧
    (state.typingUsers.Nodup →
      (userTypingHandler selectedUser ev state).typingUsers.Nodup ∧
      (ev.isTyping.truthy = true →
        (userTypingHandler selectedUser ev state).typingUsers.count ev.userId = 1)) ∧
    (userTypingHandler selectedUser ev state).messages = state.messages := by
  have hp : ¬ (ev.userId ≠ selectedUser._id) := fun h => h hpeer
  by_cases ht : ev.isTyping.truthy = true
  · by_cases hin : ev.userId ∈ state.typingUsers
    · have hafter : (userTypingHandler selectedUser ev state).typingUsers
          = state.typingUsers := by
        unfold userTypingHandler
        rw [if_neg hp]
        simp [ht, hin]
      have hmsg : (userTypingHandler selectedUser ev state).messages = state.messages := by
        unfold userTypingHandler
        rw [if_neg hp]
        simp [ht]
      rw [hafter]
      refine ⟨fun _ => ⟨hin, fun _ => rfl, fun h => absurd hin h⟩, fun h => ?_, fun _ _ => rfl,
        fun hn => ⟨hn, fun _ => List.count_eq_one_of_mem hn hin⟩, hmsg⟩
      rw [ht] at h
      exact absurd h (by decide)
    · have hafter : (userTypingHandler selectedUser ev state).typingUsers
          = state.typingUsers ++ [ev.userId] := by
        unfold userTypingHandler
        rw [if_neg hp]
        simp [ht, hin]
      have hmsg : (userTypingHandler selectedUser ev state).messages = state.messages := by
        unfold userTypingHandler
        rw [if_neg hp]
        simp [ht]
      rw [hafter]
      refine ⟨fun _ => ⟨by simp, fun h => absurd h hin, fun _ => rfl⟩, fun h => ?_, ?_, ?_, hmsg⟩
      · rw [ht] at h
        exact absurd h (by decide)
      · intro x hx
        simp [List.count_append, List.count_singleton, hx.symm]
      · intro hn
        have hn2 : (state.typingUsers ++ [ev.userId]).Nodup := by
          rw [List.nodup_append]
          refine ⟨hn, List.nodup_singleton _, ?_⟩
          intro a ha hb
          rw [List.mem_singleton] at hb
          exact hin (hb ▸ ha)
        exact ⟨hn2, fun _ => List.count_eq_one_of_mem hn2 (by simp)⟩
  · have hf : ev.isTyping.truthy = false := by simpa using ht
    have hafter : (userTypingHandler selectedUser ev state).typingUsers
        = state.typingUsers.filter (fun id => decide (id ≠ ev.userId)) := by
      unfold userTypingHandler
      rw [if_neg hp]
      simp [hf]
    have hmsg : (userTypingHandler selectedUser ev state).messages = state.messages := by
      unfold userTypingHandler
      rw [if_neg hp]
      simp [hf]
    rw [hafter]
    refine ⟨fun h => absurd h ht, fun _ => by simp, ?_, ?_, hmsg⟩
    · intro x hx
      rw [List.count_filter]
      simpa using hx
    · intro hn
      exact ⟨hn.filter _, fun h => absurd h ht⟩

/-- Witness of C14: the selected peer `P` starts typing while `Q` is listed;
`P` is appended once and `Q` is kept. -/
theorem userTyping_set_semantics_witness :
    (userTypingHandler ⟨.str "P"⟩ ⟨.str "P", .bool true⟩
        { sampleState "P" [] with typingUsers := [.str "Q"] }).typingUsers
      = [.str "Q", .str "P"] :=
  ((userTyping_set_semantics ⟨.str "P"⟩ ⟨.str "P", .bool true⟩
    { sampleState "P" [] with typingUsers := [.str "Q"] } rfl).1 rfl).2.2 (by decide)

/-! ### Conversation switch -/

/-- C15 (counterexample): the conversation with `P` holds one message and `P`
is typing; selecting `Q` leaves both the messages list and `typingUsers`
non-empty. -/
theorem setSelectedUser_keeps_conversation :
    (setSelectedUser (some ⟨.str "Q"⟩)
        (userTypingHandler ⟨.str "P"⟩ ⟨.str "P", .bool true⟩
          (sampleState "P" [sampleMessage "1" "P" "me" "T0"]))).messages
      = [sampleMessage "1" "P" "me" "T0"] ∧
    (setSelectedUser (some ⟨.str "Q"⟩)
        (userTypingHandler ⟨.str "P"⟩ ⟨.str "P", .bool true⟩
          (sampleState "P" [sampleMessage "1" "P" "me" "T0"]))).typingUsers
      = [.str "P"] ∧
    (setSelectedUser (some ⟨.str "Q"⟩)
        (userTypingHandler ⟨.str "P"⟩ ⟨.str "P", .bool true⟩
          (sampleState "P" [sampleMessage "1" "P" "me" "T0"]))).messages ≠ [] ∧
    (setSelectedUser (some ⟨.str "Q"⟩)
        (userTypingHandler ⟨.str "P"⟩ ⟨.str "P", .bool true⟩
          (sampleState "P" [sampleMessage "1" "P" "me" "T0"]))).typingUsers ≠ [] := by
  refine ⟨by decide, by decide, by decide, by decide⟩

/-- C15 (amended): `setSelectedUser` writes the selected peer only: right after
the switch the messages list and `typingUsers` are those of the previous
conversation; the messages list is replaced when a history fetch resolves, and
that leaves `typingUsers` as it was. -/
theorem setSelectedUser_frame (selectedUser : Option User) (resData : List Message)
    (state : ChatState) :
    (setSelectedUser selectedUser state).selectedUser = selectedUser ∧
    (setSelectedUser selectedUser state).messages = state.messages ∧
    (setSelectedUser selectedUser state).typingUsers = state.typingUsers ∧
    (getMessagesByUserIdBegin (setSelectedUser selectedUser state)).messages = state.messages ∧
    (getMessagesByUserIdSuccess resData
      (getMessagesByUserIdBegin (setSelectedUser selectedUser state))).messages = resData ∧
    (getMessagesByUserIdSuccess resData
      (getMessagesByUserIdBegin (setSelectedUser selectedUser state))).typingUsers
      = state.typingUsers :=
  ⟨rfl, rfl, rfl, rfl, rfl, rfl⟩

/-! ### Guards and effects of `sendMessage` -/

/-- C16: with no selected peer or no authenticated user `sendMessage` stops at
its guard: the state, and so the messages list, is the one before the call,
no request is issued, no temporary id is made, and the toast
`No conversation selected` is shown. -/
theorem sendMessage_guard (now : Nat) (createdAt : String) (authUser : Option User)
    (messageData : MessageData) (state : ChatState)
    (h : state.selectedUser = none ∨ authUser = none) :
    (sendMessageStart now createdAt authUser messageData state).state = state ∧
    (sendMessageStart now createdAt authUser messageData state).state.messages
      = state.messages ∧
    (sendMessageStart now createdAt authUser messageData state).request = none ∧
    (sendMessageStart now createdAt authUser messageData state).tempId = none ∧
    (sendMessageStart now createdAt authUser messageData state).toast
      = some "No conversation selected" := by
  have hb : sendMessageBegin now createdAt authUser messageData state = none := by
    unfold sendMessageBegin
    rcases h with h | h
    · rw [h]
    · rw [h]
      cases state.selectedUser <;> rfl
  simp [sendMessageStart, hb]

/-- Witness of C16: a send in the initial store, where no peer is selected. -/
theorem sendMessage_guard_witness :
    (sendMessageStart 5 "T1" (some ⟨.str "me"⟩) sampleDraft ChatState.init).state
      = ChatState.init ∧
    (sendMessageStart 5 "T1" (some ⟨.str "me"⟩) sampleDraft ChatState.init).request = none :=
  have h := sendMessage_guard 5 "T1" (some ⟨.str "me"⟩) sampleDraft ChatState.init (Or.inl rfl)
  ⟨h.1, h.2.2.1⟩

/-- Trimming a blank text gives the empty string. -/
theorem jsTrim_of_blank (text : String) (h : isBlank text) : jsTrim text = "" := by
  have h1 : text.data.dropWhile isJsWhitespace = [] := by
    rw [List.dropWhile_eq_nil_iff]
    exact h
  simp only [jsTrim, h1, List.reverse_nil, List.dropWhile_nil]

/-- A text that trims to the empty string is blank. -/
theorem blank_of_jsTrim (text : String) (h : jsTrim text = "") : isBlank text := by
  have h0 : ((text.data.dropWhile isJsWhitespace).reverse.dropWhile isJsWhitespace).reverse
      = [] := by
    have := congrArg String.data h
    simpa [jsTrim] using this
  rw [List.reverse_eq_nil_iff, List.dropWhile_eq_nil_iff] at h0
  have h1 : text.data.dropWhile isJsWhitespace = [] := by
    cases hd : text.data.dropWhile isJsWhitespace with
    | nil => rfl
    | cons a l =>
      have ha : isJsWhitespace a = true := h0 a (by rw [hd]; simp)
      have hna := List.head_dropWhile_not isJsWhitespace text.data (by rw [hd]; simp)
      simp only [hd, List.head_cons] at hna
      rw [ha] at hna
      exact absurd hna (by decide)
  rw [List.dropWhile_eq_nil_iff] at h1
  exact h1

/-- C17 (counterexample): the store action called with a draft whose text is
two spaces and that has no attachment, with peer `P` selected and the user
authenticated: the optimistic message is inserted and the request is issued. -/
theorem sendMessage_accepts_blank_draft :
    isBlank "  " ∧
    (sendMessageStart 5 "T1" (some ⟨.str "me"⟩)
        ⟨.str "  ", .null, .null, .null, .null, .undefined⟩ (sampleState "P" [])).state.messages
      = [optimisticMessage 5 "T1" ⟨.str "me"⟩ ⟨.str "P"⟩
          ⟨.str "  ", .null, .null, .null, .null, .undefined⟩] ∧
    (sendMessageStart 5 "T1" (some ⟨.str "me"⟩)
        ⟨.str "  ", .null, .null, .null, .null, .undefined⟩ (sampleState "P" [])).request
      = some ⟨.str "P", [("text", .str "  ")]⟩ := by
  refine ⟨?_, by decide, by decide⟩
  unfold isBlank
  decide

/-- C17 (amended): the check for an empty draft is made by the caller:
`handleSendMessage` of `MessageInput` returns without calling the store action
exactly when the text is blank and neither an image nor a video is attached,
so for such a draft no optimistic message is inserted and no request is made;
otherwise it calls `sendMessage` with the trimmed text. -/
theorem handleSendMessage_blank_guard (text : String) (imageFile videoFile : JsVal)
    (replyingTo : Option Message) :
    (handleSendMessage text imageFile videoFile replyingTo = none ↔
      isBlank text ∧ imageFile.truthy = false ∧ videoFile.truthy = false) ∧
    (∀ messageData, handleSendMessage text imageFile videoFile replyingTo = some messageData →
      messageData.text = .str (jsTrim text) ∧ messageData.imageFile = imageFile ∧
      messageData.videoFile = videoFile) := by
  have hblank : (JsVal.str (jsTrim text)).truthy = false ↔ isBlank text := by
    constructor
    · intro h
      apply blank_of_jsTrim
      simpa [JsVal.truthy] using h
    · intro h
      rw [jsTrim_of_blank text h]
      rfl
  constructor
  · unfold handleSendMessage
    constructor
    · intro h
      split at h
      · rename_i hc
        simp only [Bool.and_eq_true, Bool.not_eq_true', ] at hc
        exact ⟨hblank.mp hc.1.1, hc.1.2, hc.2⟩
      · exact absurd h (by simp)
    · rintro ⟨h1, h2, h3⟩
      simp [hblank.mpr h1, h2, h3]
  · intro messageData h
    unfold handleSendMessage at h
    split at h
    · exact absurd h (by simp)
    · simp only [Option.some.injEq] at h
      subst h
      exact ⟨rfl, rfl, rfl⟩

/-- C18: with a selected peer and an authenticated user, `sendMessage` has
appended exactly one message at the end of the list when it issues its
request, and the earlier messages are as before; that message has the
temporary id, `isOptimistic` true, the local user as sender, the selected peer
as receiver, the text of the draft, the reply reference of the draft (`null`
when the draft has none) and an empty reactions map. -/
theorem sendMessage_optimistic_insert (now : Nat) (createdAt : String) (authUser peer : User)
    (messageData : MessageData) (state : ChatState) (hsel : state.selectedUser = some peer) :
    ∃ msg : Message,
      (sendMessageStart now createdAt (some authUser) messageData state).state.messages
        = state.messages ++ [msg] ∧
      msg._id = tempId now ∧ msg.isOptimistic = true ∧
      msg.senderId = authUser._id ∧ msg.receiverId = peer._id ∧
      msg.text = messageData.text ∧
      msg.replyTo = messageData.replyTo.or .null ∧
      (messageData.replyTo.truthy = true → msg.replyTo = messageData.replyTo) ∧
      msg.reactions = [] ∧ msg.createdAt = createdAt ∧
      (sendMessageStart now createdAt (some authUser) messageData state).request
        = some ⟨peer._id, formDataOf messageData⟩ ∧
      (sendMessageStart now createdAt (some authUser) messageData state).tempId
        = some (tempId now) ∧
      (sendMessageStart now createdAt (some authUser) messageData state).state.selectedUser
        = state.selectedUser ∧
      (sendMessageStart now createdAt (some authUser) messageData state).state.typingUsers
        = state.typingUsers := by
  refine ⟨optimisticMessage now createdAt authUser peer messageData, ?_, rfl, rfl, rfl, rfl, rfl,
    rfl, ?_, rfl, rfl, ?_, ?_, ?_, ?_⟩
  · simp [sendMessageStart, sendMessageBegin, hsel]
  · intro h
    simp [optimisticMessage, JsVal.or, h]
  · simp [sendMessageStart, sendMessageBegin, hsel]
  · simp [sendMessageStart, sendMessageBegin, hsel]
  · simp [sendMessageStart, sendMessageBegin, hsel]
  · simp [sendMessageStart, sendMessageBegin, hsel]

/-- Witness of C18: a reply to the message of id `1` sent to peer `P`. -/
theorem sendMessage_optimistic_insert_witness :
    ∃ msg : Message,
      (sendMessageStart 5 "T1" (some ⟨.str "me"⟩)
          ⟨.str "yo", .null, .null, .null, .null, .str "1"⟩
          (sampleState "P" [sampleMessage "1" "P" "me" "T0"])).state.messages
        = [sampleMessage "1" "P" "me" "T0"] ++ [msg] ∧
      msg._id = tempId 5 ∧ msg.isOptimistic = true ∧ msg.text = .str "yo" ∧
      msg.replyTo = .str "1" :=
  (sendMessage_optimistic_insert 5 "T1" ⟨.str "me"⟩ ⟨.str "P"⟩
    ⟨.str "yo", .null, .null, .null, .null, .str "1"⟩
    (sampleState "P" [sampleMessage "1" "P" "me" "T0"]) rfl).imp
    (fun _ h => ⟨h.1, h.2.1, h.2.2.1, h.2.2.2.2.2.1, h.2.2.2.2.2.2.2.1 rfl⟩)

/-- C19 (counterexample): the request of the send with temporary id `temp-5`
rejects with the reason `Network Error`; the promise of `sendMessage` is
fulfilled, not rejected. -/
theorem sendMessage_failure_fulfilled :
    (sendMessageEnd (tempId 5) (.rejected ⟨.str "Network Error"⟩)
        (sampleState "P" [optimisticMessage 5 "T1" ⟨.str "me"⟩ ⟨.str "P"⟩ sampleDraft])).settled
      = Settled.fulfilled ∧
    (sendMessageEnd (tempId 5) (.rejected ⟨.str "Network Error"⟩)
        (sampleState "P" [optimisticMessage 5 "T1" ⟨.str "me"⟩ ⟨.str "P"⟩ sampleDraft])).settled
      ≠ Settled.rejected := by
  refine ⟨by decide, by decide⟩

/-- C19 (amended): when the request of `sendMessage` fails the failure is not
passed on to the caller: the `catch` branch removes the optimistic message,
shows the failure reason in a toast (the message of the response, or
`Failed to send message` when it has none), and the promise of `sendMessage`
is fulfilled, as it is after a successful send. -/
theorem sendMessage_failure_handled (t : JsVal) (error : RequestError) (resData : Message)
    (state : ChatState) :
    (sendMessageEnd t (.rejected error) state).settled = .fulfilled ∧
    (sendMessageEnd t (.rejected error) state).settled
      = (sendMessageEnd t (.resolved resData) state).settled ∧
    (sendMessageEnd t (.rejected error) state).state = sendMessageFailure t state ∧
    (error.message.truthy = true →
      (sendMessageEnd t (.rejected error) state).toast = some error.message) ∧
    (error.message.truthy = false →
      (sendMessageEnd t (.rejected error) state).toast
        = some (.str "Failed to send message")) := by
  refine ⟨rfl, rfl, rfl, ?_, ?_⟩
  · intro h
    simp [sendMessageEnd, JsVal.or, h]
  · intro h
    simp [sendMessageEnd, JsVal.or, h]

/-! ### History fetch -/

/-- C20 (counterexample): a fetch for `A` is started, `B` is selected, the
fetch for `B` resolves with the message of id `2`, and then the fetch for `A`
resolves with the message of id `1`: `B` is still selected and the messages
list is now the history of `A`, not the list before the resolution. -/
theorem stale_history_overwrites :
    (getMessagesByUserIdSuccess [sampleMessage "2" "B" "me" "T0"]
        (getMessagesByUserIdBegin (setSelectedUser (some ⟨.str "B"⟩)
          (getMessagesByUserIdBegin (sampleState "A" []))))).messages
      = [sampleMessage "2" "B" "me" "T0"] ∧
    (getMessagesByUserIdSuccess [sampleMessage "1" "A" "me" "T0"]
        (getMessagesByUserIdSuccess [sampleMessage "2" "B" "me" "T0"]
          (getMessagesByUserIdBegin (setSelectedUser (some ⟨.str "B"⟩)
            (getMessagesByUserIdBegin (sampleState "A" [])))))).selectedUser
      = some ⟨.str "B"⟩ ∧
    (getMessagesByUserIdSuccess [sampleMessage "1" "A" "me" "T0"]
        (getMessagesByUserIdSuccess [sampleMessage "2" "B" "me" "T0"]
          (getMessagesByUserIdBegin (setSelectedUser (some ⟨.str "B"⟩)
            (getMessagesByUserIdBegin (sampleState "A" [])))))).messages
      = [sampleMessage "1" "A" "me" "T0"] ∧
    (getMessagesByUserIdSuccess [sampleMessage "1" "A" "me" "T0"]
        (getMessagesByUserIdSuccess [sampleMessage "2" "B" "me" "T0"]
          (getMessagesByUserIdBegin (setSelectedUser (some ⟨.str "B"⟩)
            (getMessagesByUserIdBegin (sampleState "A" [])))))).messages
      ≠ [sampleMessage "2" "B" "me" "T0"] := by
  refine ⟨by decide, by decide, by decide, by decide⟩

/-- C20 (amended): a history fetch that resolves is not discarded: it writes
the fetched list into the store whatever peer is selected at that time, and
leaves the selected peer as it is, so the messages list is the same after the
resolution as before exactly when the fetched list is the list already in the
store; a fetch that fails leaves the messages list as it was. -/
theorem history_resolution_unconditional (resData : List Message) (state : ChatState) :
    (getMessagesByUserIdSuccess resData state).messages = resData ∧
    (getMessagesByUserIdSuccess resData state).selectedUser = state.selectedUser ∧
    (getMessagesByUserIdSuccess resData state).isMessagesLoading = false ∧
    ((getMessagesByUserIdSuccess resData state).messages = state.messages ↔
      resData = state.messages) ∧
    (getMessagesByUserIdFailure state).messages = state.messages ∧
    (getMessagesByUserIdFailure state).isMessagesLoading = false :=
  ⟨rfl, rfl, rfl, Iff.rfl, rfl, rfl⟩

/-! ### Subscription -/

theorem handlerCount_on (sk : Socket) (e ev : SocketEvent) (c : Option User) :
    (sk.on e c).handlerCount ev = sk.handlerCount ev + (if e = ev then 1 else 0) := by
  simp only [Socket.on, Socket.handlerCount, List.countP_append, List.countP_cons,
    List.countP_nil]
  by_cases h : e = ev <;> simp [h]

theorem handlerCount_off (sk : Socket) (e ev : SocketEvent) :
    (sk.off e).handlerCount ev = if e = ev then 0 else sk.handlerCount ev := by
  simp only [Socket.off, Socket.handlerCount, List.countP_filter]
  by_cases h : e = ev
  · subst h
    simp only [if_true]
    rw [List.countP_eq_zero]
    intro l _
    simp
  · simp only [h, if_false]
    apply List.countP_congr
    intro l _
    simp only [Bool.and_eq_true, decide_eq_true_eq, ne_eq]
    constructor
    · exact fun hh => hh.1
    · intro hh
      exact ⟨hh, fun h2 => h (h2.symm.trans hh)⟩

/-- After `unsubscribeFromMessages` none of the five events has a listener. -/
theorem unsubscribe_handlerCount (sk : Socket) (ev : SocketEvent) (hev : ev ∈ chatEvents) :
    ∃ sk1, unsubscribeFromMessages (some sk) = some sk1 ∧ sk1.handlerCount ev = 0 := by
  refine ⟨_, rfl, ?_⟩
  simp only [chatEvents, List.mem_cons, List.mem_singleton, List.not_mem_nil, or_false] at hev
  rcases hev with h | h | h | h | h <;> subst h <;> simp [handlerCount_off]

/-- With a selected peer `subscribeToMessages` adds one listener to each of the
five events. -/
theorem subscribe_handlerCount (state : ChatState) (sk : Socket) (peer : User)
    (hsel : state.selectedUser = some peer) (ev : SocketEvent) (hev : ev ∈ chatEvents) :
    ∃ sk1, subscribeToMessages state (some sk) = some sk1 ∧
      sk1.handlerCount ev = sk.handlerCount ev + 1 := by
  simp only [subscribeToMessages, hsel]
  refine ⟨_, rfl, ?_⟩
  simp only [chatEvents, List.mem_cons, List.mem_singleton, List.not_mem_nil, or_false] at hev
  rcases hev with h | h | h | h | h <;> subst h <;> simp [handlerCount_on]

theorem chatContainerCleanup_invariant (s : Session) (h : subscriptionInvariant s) :
    subscriptionInvariant (chatContainerCleanup s) ∧ (chatContainerCleanup s).cleanup = false := by
  obtain ⟨sk, hsk, hinv⟩ := h
  unfold chatContainerCleanup
  by_cases hc : s.cleanup = true
  · simp only [hc, if_true, and_true]
    refine ⟨_, by rw [hsk]; rfl, ?_⟩
    intro ev hev
    obtain ⟨sk1, h1, h2⟩ := unsubscribe_handlerCount sk ev hev
    simp only [unsubscribeFromMessages, Option.some.injEq] at h1
    subst h1
    exact ⟨by omega, fun _ => h2⟩
  · have hc2 : s.cleanup = false := by simpa using hc
    simp only [hc2, Bool.false_eq_true, if_false, and_true]
    exact ⟨sk, hsk, hinv⟩

theorem chatContainerEffect_invariant (s : Session) (h : subscriptionInvariant s)
    (hc : s.cleanup = false) : subscriptionInvariant (chatContainerEffect s) := by
  obtain ⟨sk, hsk, hinv⟩ := h
  have hidle : subscriptionInvariant { s with cleanup := false } :=
    ⟨sk, hsk, fun ev hev => ⟨(hinv ev hev).1, fun _ => (hinv ev hev).2 hc⟩⟩
  cases hsel : s.state.selectedUser with
  | none =>
    have he : chatContainerEffect s = { s with cleanup := false } := by
      simp only [chatContainerEffect, hsel]
    rw [he]
    exact hidle
  | some peer =>
    by_cases ht : peer._id.truthy = true
    · have he : chatContainerEffect s =
          { state := getMessagesByUserIdBegin s.state
            socket := some (((((sk.on .newMessage (some peer)).on .userTyping (some peer)).on
              .messageReaction (some peer)).on .messageDelivered (some peer)).on
              .messagesRead (some peer))
            cleanup := true } := by
        simp only [chatContainerEffect, hsel, ht, if_true, subscribeToMessages,
          getMessagesByUserIdBegin, hsk]
      rw [he]
      refine ⟨_, rfl, ?_⟩
      intro ev hev
      have h0 := (hinv ev hev).2 hc
      obtain ⟨sk1, h1, h2⟩ := subscribe_handlerCount s.state sk peer hsel ev hev
      simp only [subscribeToMessages, hsel, Option.some.injEq] at h1
      subst h1
      exact ⟨by omega, fun hh => by simp at hh⟩
    · have he : chatContainerEffect s = { s with cleanup := false } := by
        simp [chatContainerEffect, hsel, ht]
      rw [he]
      exact hidle

theorem switchConversation_invariant (s : Session) (u : Option User)
    (h : subscriptionInvariant s) : subscriptionInvariant (switchConversation s u) := by
  unfold switchConversation
  have h1 : subscriptionInvariant { s with state := setSelectedUser u s.state } := h
  have h2 := chatContainerCleanup_invariant _ h1
  exact chatContainerEffect_invariant _ h2.1 h2.2

theorem switches_invariant (switches : List (Option User)) (s : Session)
    (h : subscriptionInvariant s) :
    subscriptionInvariant (switches.foldl switchConversation s) := by
  induction switches generalizing s with
  | nil => exact h
  | cons u rest ih => exact ih _ (switchConversation_invariant s u h)

/-- C21: with a socket present, `unsubscribeFromMessages` leaves no listener
for any of the five events, `subscribeToMessages` with a selected peer adds
one listener to each of the five, and after mounting `ChatContainer` on a
socket without conversation listeners and every sequence of conversation
switches (cleanup of the previous effect run, then the effect for the new
selection) each of the five events has at most one listener. -/
theorem subscription_at_most_one_handler :
    (∀ (sk : Socket) (ev : SocketEvent), ev ∈ chatEvents →
      ∃ sk1, unsubscribeFromMessages (some sk) = some sk1 ∧ sk1.handlerCount ev = 0) ∧
    (∀ (state : ChatState) (sk : Socket) (peer : User), state.selectedUser = some peer →
      ∀ ev ∈ chatEvents, ∃ sk1, subscribeToMessages state (some sk) = some sk1 ∧
        sk1.handlerCount ev = sk.handlerCount ev + 1) ∧
    (∀ (state : ChatState) (sk : Socket) (switches : List (Option User)),
      (∀ ev ∈ chatEvents, sk.handlerCount ev = 0) →
      ∃ sk1, (switches.foldl switchConversation (mountChatContainer state (some sk))).socket
          = some sk1 ∧
        ∀ ev ∈ chatEvents, sk1.handlerCount ev ≤ 1) := by
  refine ⟨unsubscribe_handlerCount, ?_, ?_⟩
  · intro state sk peer hsel ev hev
    exact subscribe_handlerCount state sk peer hsel ev hev
  · intro state sk switches h0
    have hstart : subscriptionInvariant { state := state, socket := some sk, cleanup := false } :=
      ⟨sk, rfl, fun ev hev => ⟨by rw [h0 ev hev]; omega, fun _ => h0 ev hev⟩⟩
    have hmount : subscriptionInvariant (mountChatContainer state (some sk)) :=
      chatContainerEffect_invariant _ hstart rfl
    obtain ⟨sk1, h1, h2⟩ := switches_invariant switches _ hmount
    exact ⟨sk1, h1, fun ev hev => (h2 ev hev).1⟩

/-! ### Malformed events -/

/-- C22 (counterexample): with peer `P` selected, a `newMessage` payload from
`P` that has no `_id` is appended to the messages list, and an absent payload
makes the listener raise. -/
theorem malformed_newMessage_not_dropped :
    newMessageListener ⟨.str "P"⟩
        (some { sampleMessage "2" "P" "me" "T1" with _id := .undefined })
        (sampleState "P" [sampleMessage "1" "P" "me" "T0"])
      = .ok (sampleState "P" [sampleMessage "1" "P" "me" "T0",
          { sampleMessage "2" "P" "me" "T1" with _id := .undefined }]) ∧
    (sampleState "P" [sampleMessage "1" "P" "me" "T0",
        { sampleMessage "2" "P" "me" "T1" with _id := .undefined }]).messages
      ≠ (sampleState "P" [sampleMessage "1" "P" "me" "T0"]).messages ∧
    newMessageListener ⟨.str "P"⟩ none (sampleState "P" [sampleMessage "1" "P" "me" "T0"])
      = .error .typeError :=
  ⟨rfl, by decide, rfl⟩

/-- C22 (amended): payloads are not validated.  An absent payload makes each of
the five listeners raise a `TypeError`, and the store keeps its state.  A
present payload is handled with every missing field read as `undefined`: a
`newMessage` of the selected peer without `_id` is appended when every stored
message has an `_id`; a payload whose peer field is missing (`senderId` and
`receiverId` of `newMessage`, `userId` of `userTyping` and `messagesRead`) is
taken for an event of another peer and leaves the state unchanged, when the
selected peer has an id. -/
theorem malformed_event_handling (selectedUser : User) (authUser : Option User)
    (state : ChatState) :
    (newMessageListener selectedUser none state = .error .typeError ∧
      userTypingListener selectedUser none state = .error .typeError ∧
      messageReactionListener none state = .error .typeError ∧
      messageDeliveredListener none state = .error .typeError ∧
      messagesReadListener selectedUser authUser none state = .error .typeError ∧
      storeAfter state (newMessageListener selectedUser none state) = state) ∧
    (∀ m : Message, m._id = .undefined →
      (m.senderId = selectedUser._id ∨ m.receiverId = selectedUser._id) →
      (∀ x ∈ state.messages, x._id ≠ .undefined) →
      newMessageListener selectedUser (some m) state
        = .ok { state with messages := state.messages ++ [m] }) ∧
    (selectedUser._id ≠ .undefined →
      (∀ m : Message, m.senderId = .undefined → m.receiverId = .undefined →
        newMessageListener selectedUser (some m) state = .ok state) ∧
      (∀ ev : UserTypingEvent, ev.userId = .undefined →
        userTypingListener selectedUser (some ev) state = .ok state) ∧
      (∀ ev : MessagesReadEvent, ev.userId = .undefined →
        messagesReadListener selectedUser authUser (some ev) state = .ok state)) := by
  refine ⟨⟨rfl, rfl, rfl, rfl, rfl, rfl⟩, ?_, ?_⟩
  · intro m hid hrel hall
    have hnew : m._id ∉ ids state.messages := by
      simp only [ids, List.mem_map, not_exists, not_and]
      intro x hx hxm
      exact hall x hx (hxm.trans hid)
    simp only [newMessageListener, onPayload]
    rw [newMessageHandler_append selectedUser m state hrel hnew]
  · intro hsel
    refine ⟨?_, ?_, ?_⟩
    · intro m hs hr
      have h1 : m.senderId ≠ selectedUser._id := by rw [hs]; exact fun h => hsel h.symm
      have h2 : m.receiverId ≠ selectedUser._id := by rw [hr]; exact fun h => hsel h.symm
      simp [newMessageListener, onPayload, newMessageHandler, h1, h2]
    · intro ev hu
      have h1 : ev.userId ≠ selectedUser._id := by rw [hu]; exact fun h => hsel h.symm
      simp [userTypingListener, onPayload, userTypingHandler, h1]
    · intro ev hu
      have h1 : ev.userId ≠ selectedUser._id := by rw [hu]; exact fun h => hsel h.symm
      simp [messagesReadListener, onPayload, messagesReadHandler, h1]

/-! ### Reaction actions -/

/-- The state written by a reaction action whose request resolved, at one
index of the messages list. -/
theorem reaction_patch_at (messageId : JsVal) (reactions : List (String × String))
    (l : List Message) (i : Nat) (m : Message) (hm : l[i]? = some m) :
    (l.map (fun x => if x._id = messageId then { x with reactions := reactions } else x))[i]?
      = some (if m._id = messageId then { m with reactions := reactions } else m) := by
  simp only [List.getElem?_map, hm, Option.map_some']

/-- C23: when the request of `addReaction` or of `removeReaction` resolves,
every message with the target id gets exactly the reactions map of the
response and keeps its other fields, every message with another id is
unchanged, and the list keeps its length and order. -/
theorem reaction_success_replaces_map (messageId : JsVal) (reactions : List (String × String))
    (state : ChatState) :
    (addReactionEnd messageId (.resolved reactions) state).state.messages.length
      = state.messages.length ∧
    (removeReactionEnd messageId (.resolved reactions) state).state.messages.length
      = state.messages.length ∧
    (∀ (i : Nat) (m : Message), state.messages[i]? = some m →
      (m._id = messageId →
        (addReactionEnd messageId (.resolved reactions) state).state.messages[i]?
          = some { m with reactions := reactions } ∧
        (removeReactionEnd messageId (.resolved reactions) state).state.messages[i]?
          = some { m with reactions := reactions }) ∧
      (m._id ≠ messageId →
        (addReactionEnd messageId (.resolved reactions) state).state.messages[i]? = some m ∧
        (removeReactionEnd messageId (.resolved reactions) state).state.messages[i]?
          = some m)) := by
  refine ⟨by simp [addReactionEnd], by simp [removeReactionEnd], ?_⟩
  intro i m hm
  have h := reaction_patch_at messageId reactions state.messages i m hm
  constructor
  · intro hid
    rw [if_pos hid] at h
    exact ⟨h, h⟩
  · intro hid
    rw [if_neg hid] at h
    exact ⟨h, h⟩

/-- C24: when the request of `addReaction` or of `removeReaction` fails, the
action writes nothing: the state, and so the messages list with the reactions
map of the target message, is the one the action found, and a toast is shown. -/
theorem reaction_failure_keeps_state (messageId : JsVal) (state : ChatState) :
    (addReactionEnd messageId .rejected state).state = state ∧
    (removeReactionEnd messageId .rejected state).state = state ∧
    (addReactionEnd messageId .rejected state).state.messages = state.messages ∧
    (removeReactionEnd messageId .rejected state).state.messages = state.messages ∧
    (addReactionEnd messageId .rejected state).toast = some "Failed to add reaction" ∧
    (removeReactionEnd messageId .rejected state).toast = some "Failed to remove reaction" :=
  ⟨rfl, rfl, rfl, rfl, rfl, rfl⟩

/-- The reaction of a user whose id is a string is read under that string by
both lookups of `userReaction`. -/
theorem userReaction_str (uid : String) (m : Message) :
    userReaction ⟨.str uid⟩ m = reactionOf m (.str uid) := by
  simp only [userReaction, optionalToString, propertyKey, JsVal.or]
  split <;> rfl

/-- C25: a reaction click with emoji `e` calls `removeReaction` exactly when
the reaction of the local user on the message is `e`, and `addReaction` with
`e` otherwise.  For two clicks on the same emoji, the first on a message where
the user has another or no reaction: the first click calls `addReaction`;
once it is confirmed with a map holding `e` for the user, the second click
calls `removeReaction`, which posts `e`; once that is confirmed with a map
that does not hold the user, the message has no reaction of the user. -/
theorem reaction_toggle (uid : String) (e : String) (state : ChatState) (i : Nat) (m : Message)
    (map1 map2 : List (String × String))
    (hm : state.messages[i]? = some m) (he : e ≠ "")
    (hfirst : m.reactions.lookup uid ≠ some e)
    (h1 : map1.lookup uid = some e) (h2 : map2.lookup uid = none) :
    (∀ x : Message, handleReactionClick ⟨.str uid⟩ x e = .removeReaction x._id ↔
      x.reactions.lookup uid = some e) ∧
    (∀ x : Message, x.reactions.lookup uid ≠ some e →
      handleReactionClick ⟨.str uid⟩ x e = .addReaction x._id e) ∧
    handleReactionClick ⟨.str uid⟩ m e = .addReaction m._id e ∧
    (addReactionEnd m._id (.resolved map1) state).state.messages[i]?
      = some { m with reactions := map1 } ∧
    handleReactionClick ⟨.str uid⟩ { m with reactions := map1 } e = .removeReaction m._id ∧
    removeReactionStart (some ⟨.str uid⟩) m._id (addReactionEnd m._id (.resolved map1) state).state
      = .requested m._id (.str e) ∧
    (removeReactionEnd m._id (.resolved map2)
        (addReactionEnd m._id (.resolved map1) state).state).state.messages[i]?
      = some { m with reactions := map2 } ∧
    reactionOf { m with reactions := map2 } (.str uid) = .undefined := by
  have hclick : ∀ x : Message, handleReactionClick ⟨.str uid⟩ x e = .removeReaction x._id ↔
      x.reactions.lookup uid = some e := by
    intro x
    simp only [handleReactionClick, userReaction_str, reactionOf, propertyKey]
    cases hl : x.reactions.lookup uid with
    | none => simp
    | some y => simp
  have hadd : ∀ x : Message, x.reactions.lookup uid ≠ some e →
      handleReactionClick ⟨.str uid⟩ x e = .addReaction x._id e := by
    intro x hx
    simp only [handleReactionClick, userReaction_str, reactionOf, propertyKey]
    cases hl : x.reactions.lookup uid with
    | none => simp
    | some y =>
      have : y ≠ e := fun h => hx (by rw [hl, h])
      simp [this]
  have hs1 : (addReactionEnd m._id (.resolved map1) state).state.messages[i]?
      = some { m with reactions := map1 } := by
    have := reaction_patch_at m._id map1 state.messages i m hm
    simpa [addReactionEnd] using this
  refine ⟨hclick, hadd, hadd m hfirst, hs1, (hclick _).mpr h1, ?_, ?_, ?_⟩
  · have hmem : m ∈ state.messages := List.getElem?_mem hm
    simp only [removeReactionStart, addReactionEnd]
    cases hf : (state.messages.map (fun x =>
        if x._id = m._id then { x with reactions := map1 } else x)).find?
        (fun x => decide (x._id = m._id)) with
    | none =>
      rw [List.find?_eq_none] at hf
      have := hf { m with reactions := map1 } (by
        simp only [List.mem_map]
        exact ⟨m, hmem, by simp⟩)
      simp at this
    | some found =>
      have hfound := List.mem_of_find?_eq_some hf
      have hid := List.find?_some hf
      simp only [decide_eq_true_eq] at hid
      simp only [List.mem_map] at hfound
      obtain ⟨x, _, hx⟩ := hfound
      have hr : found.reactions = map1 := by
        by_cases hxid : x._id = m._id
        · simp only [hxid, if_true] at hx
          rw [← hx]
        · simp only [hxid, if_false] at hx
          rw [hx] at hxid
          exact absurd hid hxid
      have hreact : reactionOf found (.str uid) = .str e := by
        simp only [reactionOf, propertyKey, hr, h1]
      have htruthy : (JsVal.str e).truthy = true := by
        simp [JsVal.truthy, he]
      simp only [hreact, htruthy, if_true]
  · have h3 := reaction_patch_at m._id map2
      (addReactionEnd m._id (.resolved map1) state).state.messages i _ hs1
    simpa [removeReactionEnd] using h3
  · simp only [reactionOf, propertyKey, h2]

/-- Witness of C25: the user `me` clicks the thumb twice on the message of
id `1`, which has no reaction at first. -/
theorem reaction_toggle_witness :
    (removeReactionEnd (JsVal.str "1") (.resolved [])
        (addReactionEnd (JsVal.str "1") (.resolved [("me", "👍")])
          (sampleState "P" [sampleMessage "1" "P" "me" "T0"])).state).state.messages[0]?
      = some { sampleMessage "1" "P" "me" "T0" with reactions := [] } :=
  (reaction_toggle "me" "👍" (sampleState "P" [sampleMessage "1" "P" "me" "T0"]) 0
    (sampleMessage "1" "P" "me" "T0") [("me", "👍")] [] rfl (by decide) (by decide) rfl
    rfl).2.2.2.2.2.2.1

/-! ### Sends completing out of order, and a fetch during a send -/

/-- C27: for two sends in flight with distinct temporary ids `t1` at index `k1`
and `t2` at index `k2`, each carried by that one message only, and server
messages `s1` and `s2` whose ids are neither temporary id, applying the two
success branches in either order gives the same state: the list keeps its
length, holds `s1` at `k1` and `s2` at `k2`, and every other index is as
before. -/
theorem sendMessage_success_commute (t1 t2 : JsVal) (s1 s2 : Message) (state : ChatState)
    (k1 k2 : Nat) (ht : t1 ≠ t2)
    (hs1 : s1._id ≠ t1 ∧ s1._id ≠ t2) (hs2 : s2._id ≠ t1 ∧ s2._id ≠ t2)
    (hk1 : ∃ m, state.messages[k1]? = some m ∧ m._id = t1)
    (honly1 : ∀ j m, j ≠ k1 → state.messages[j]? = some m → m._id ≠ t1)
    (hk2 : ∃ m, state.messages[k2]? = some m ∧ m._id = t2)
    (honly2 : ∀ j m, j ≠ k2 → state.messages[j]? = some m → m._id ≠ t2) :
    sendMessageSuccess t2 s2 (sendMessageSuccess t1 s1 state)
      = sendMessageSuccess t1 s1 (sendMessageSuccess t2 s2 state) ∧
    (sendMessageSuccess t2 s2 (sendMessageSuccess t1 s1 state)).messages.length
      = state.messages.length ∧
    (sendMessageSuccess t2 s2 (sendMessageSuccess t1 s1 state)).messages[k1]? = some s1 ∧
    (sendMessageSuccess t2 s2 (sendMessageSuccess t1 s1 state)).messages[k2]? = some s2 ∧
    ∀ j, j ≠ k1 → j ≠ k2 →
      (sendMessageSuccess t2 s2 (sendMessageSuccess t1 s1 state)).messages[j]?
        = state.messages[j]? := by
  obtain ⟨m1, hm1, hm1t⟩ := hk1
  obtain ⟨m2, hm2, hm2t⟩ := hk2
  have hpoint : ∀ x : Message,
      (if (if x._id = t1 then s1 else x)._id = t2 then s2 else (if x._id = t1 then s1 else x))
        = (if (if x._id = t2 then s2 else x)._id = t1 then s1
            else (if x._id = t2 then s2 else x)) := by
    intro x
    by_cases h1 : x._id = t1
    · have h2 : x._id ≠ t2 := fun h => ht (h1.symm.trans h)
      simp [h1, h2, hs1.2, ht]
    · by_cases h2 : x._id = t2
      · simp [h2, hs2.1, Ne.symm ht]
      · simp [h1, h2]
  have hget : ∀ j : Nat,
      (sendMessageSuccess t2 s2 (sendMessageSuccess t1 s1 state)).messages[j]?
        = (state.messages[j]?).map (fun x =>
            if (if x._id = t1 then s1 else x)._id = t2 then s2
            else (if x._id = t1 then s1 else x)) := by
    intro j
    simp only [sendMessageSuccess, List.getElem?_map, Option.map_map]
    rfl
  refine ⟨?_, by simp [sendMessageSuccess], ?_, ?_, ?_⟩
  · simp only [sendMessageSuccess, List.map_map]
    congr 1
    apply List.map_congr_left
    intro x _
    exact hpoint x
  · rw [hget, hm1]
    simp [hm1t, hs1.2]
  · have h21 : m2._id ≠ t1 := by rw [hm2t]; exact Ne.symm ht
    rw [hget, hm2]
    simp only [Option.map_some']
    rw [if_neg h21, if_pos hm2t]
  · intro j hj1 hj2
    rw [hget]
    cases hg : state.messages[j]? with
    | none => rfl
    | some x =>
      have hx1 := honly1 j x hj1 hg
      have hx2 := honly2 j x hj2 hg
      simp [hx1, hx2]

/-- Witness of C27: the sends `temp-5` and `temp-6` behind the message of
id `1`, confirmed with the server messages of ids `8` and `9`. -/
theorem sendMessage_success_commute_witness :
    sendMessageSuccess (tempId 6) (sampleMessage "9" "me" "P" "T2")
        (sendMessageSuccess (tempId 5) (sampleMessage "8" "me" "P" "T1")
          (sampleState "P" [sampleMessage "1" "P" "me" "T0",
            optimisticMessage 5 "T1" ⟨.str "me"⟩ ⟨.str "P"⟩ sampleDraft,
            optimisticMessage 6 "T2" ⟨.str "me"⟩ ⟨.str "P"⟩ sampleDraft]))
      = sendMessageSuccess (tempId 5) (sampleMessage "8" "me" "P" "T1")
        (sendMessageSuccess (tempId 6) (sampleMessage "9" "me" "P" "T2")
          (sampleState "P" [sampleMessage "1" "P" "me" "T0",
            optimisticMessage 5 "T1" ⟨.str "me"⟩ ⟨.str "P"⟩ sampleDraft,
            optimisticMessage 6 "T2" ⟨.str "me"⟩ ⟨.str "P"⟩ sampleDraft])) :=
  (sendMessage_success_commute (tempId 5) (tempId 6) (sampleMessage "8" "me" "P" "T1")
    (sampleMessage "9" "me" "P" "T2")
    (sampleState "P" [sampleMessage "1" "P" "me" "T0",
      optimisticMessage 5 "T1" ⟨.str "me"⟩ ⟨.str "P"⟩ sampleDraft,
      optimisticMessage 6 "T2" ⟨.str "me"⟩ ⟨.str "P"⟩ sampleDraft]) 1 2
    (by decide) (by decide) (by decide) ⟨_, rfl, rfl⟩
    (by
      intro j m hj hm
      match j, hj, hm with
      | 0, _, hm =>
        simp only [sampleState, List.getElem?_cons_zero, Option.some.injEq] at hm
        subst hm
        decide
      | 2, _, hm =>
        simp only [sampleState, List.getElem?_cons_succ, List.getElem?_cons_zero,
          Option.some.injEq] at hm
        subst hm
        decide
      | j + 3, _, hm => simp [sampleState] at hm)
    ⟨_, rfl, rfl⟩
    (by
      intro j m hj hm
      match j, hj, hm with
      | 0, _, hm =>
        simp only [sampleState, List.getElem?_cons_zero, Option.some.injEq] at hm
        subst hm
        decide
      | 1, _, hm =>
        simp only [sampleState, List.getElem?_cons_succ, List.getElem?_cons_zero,
          Option.some.injEq] at hm
        subst hm
        decide
      | j + 3, _, hm => simp [sampleState] at hm)).1

/-- C29: a history fetch that resolves while a send is in flight makes the
messages list exactly the fetched list, without the optimistic message when
the fetched list has no message with the temporary id; when the send then
succeeds, the list is still the fetched list, so the server message of the
send is in the store only if the fetch returned it. -/
theorem history_during_send (now : Nat) (createdAt : String) (authUser peer : User)
    (messageData : MessageData) (fetched : List Message) (resData : Message)
    (state : ChatState) (hsel : state.selectedUser = some peer) :
    ∃ sent, sendMessageBegin now createdAt (some authUser) messageData state
        = some (tempId now, peer, sent) ∧
      countId (tempId now) sent.messages ≥ 1 ∧
      (getMessagesByUserIdSuccess fetched sent).messages = fetched ∧
      ((∀ m ∈ fetched, m._id ≠ tempId now) →
        countId (tempId now) (getMessagesByUserIdSuccess fetched sent).messages = 0 ∧
        (sendMessageSuccess (tempId now) resData
          (getMessagesByUserIdSuccess fetched sent)).messages = fetched ∧
        (resData ∈ (sendMessageSuccess (tempId now) resData
          (getMessagesByUserIdSuccess fetched sent)).messages → resData ∈ fetched)) := by
  refine ⟨{ state with
      messages := state.messages ++ [optimisticMessage now createdAt authUser peer messageData] },
    by simp only [sendMessageBegin, hsel], ?_, rfl, ?_⟩
  · simp [countId, optimisticMessage]
  · intro hfresh
    have hmap : (sendMessageSuccess (tempId now) resData
        (getMessagesByUserIdSuccess fetched
          { state with
            messages :=
              state.messages ++ [optimisticMessage now createdAt authUser peer messageData] })).messages
        = fetched := by
      simp only [sendMessageSuccess, getMessagesByUserIdSuccess]
      conv_rhs => rw [← List.map_id fetched]
      apply List.map_congr_left
      intro m hm
      simp [hfresh m hm]
    refine ⟨?_, hmap, fun h => by rw [hmap] at h; exact h⟩
    simp only [countId, getMessagesByUserIdSuccess]
    rw [List.countP_eq_zero]
    intro m hm
    simpa using hfresh m hm

/-- Witness of C29: the send `temp-5` is in flight when the fetch resolves with
the message of id `1`; the confirmation with the message of id `9` leaves the
list as fetched. -/
theorem history_during_send_witness :
    ∃ sent, sendMessageBegin 5 "T1" (some ⟨.str "me"⟩) sampleDraft (sampleState "P" [])
        = some (tempId 5, ⟨.str "P"⟩, sent) ∧
      (sendMessageSuccess (tempId 5) (sampleMessage "9" "me" "P" "T1")
        (getMessagesByUserIdSuccess [sampleMessage "1" "P" "me" "T0"] sent)).messages
        = [sampleMessage "1" "P" "me" "T0"] :=
  (history_during_send 5 "T1" ⟨.str "me"⟩ ⟨.str "P"⟩ sampleDraft
    [sampleMessage "1" "P" "me" "T0"] (sampleMessage "9" "me" "P" "T1") (sampleState "P" [])
    rfl).imp (fun _ h => ⟨h.1, (h.2.2.2 (by decide)).2.1⟩)

/-! ### Attachments -/

theorem applyInput_atMostOneFile (s : InputState) (a : InputAction) (h : atMostOneFile s) :
    atMostOneFile (applyInput s a) := by
  cases a with
  | imageChange file =>
    cases file with
    | none => exact h
    | some f =>
      simp only [applyInput, handleImageChange]
      split
      · exact h
      · split
        · exact h
        · exact Or.inr rfl
  | videoChange file =>
    cases file with
    | none => exact h
    | some f =>
      simp only [applyInput, handleVideoChange]
      split
      · exact h
      · split
        · exact h
        · exact Or.inl rfl
  | removeImage => exact Or.inl rfl
  | removeVideo => exact Or.inr rfl
  | imageLoaded r => exact h
  | videoLoaded r => exact h
  | sent => exact Or.inl rfl

/-- C28: starting from no attachment, after every sequence of image
selections, video selections and removals (and of preview loads and sends) at
most one of `imageFile` and `videoFile` is set; an accepted image selection
sets the image and clears the video, an accepted video selection sets the
video and clears the image, and a rejected selection (wrong type, image over
10 MB, video over 50 MB) leaves the state as it was. -/
theorem attachments_exclusive :
    (∀ actions : List InputAction, atMostOneFile (actions.foldl applyInput InputState.empty)) ∧
    (∀ (s : InputState) (f : FileObj), jsStartsWith f.type "image/" = true →
      f.size ≤ 10 * 1024 * 1024 →
      (handleImageChange (some f) s).1.imageFile = some f ∧
      (handleImageChange (some f) s).1.videoFile = none) ∧
    (∀ (s : InputState) (f : FileObj), jsStartsWith f.type "video/" = true →
      f.size ≤ 50 * 1024 * 1024 →
      (handleVideoChange (some f) s).1.videoFile = some f ∧
      (handleVideoChange (some f) s).1.imageFile = none) ∧
    (∀ (s : InputState) (f : FileObj),
      (jsStartsWith f.type "image/" = false ∨ f.size > 10 * 1024 * 1024) →
      (handleImageChange (some f) s).1 = s) ∧
    (∀ (s : InputState) (f : FileObj),
      (jsStartsWith f.type "video/" = false ∨ f.size > 50 * 1024 * 1024) →
      (handleVideoChange (some f) s).1 = s) := by
  refine ⟨?_, ?_, ?_, ?_, ?_⟩
  · intro actions
    have hgen : ∀ (l : List InputAction) (s : InputState), atMostOneFile s →
        atMostOneFile (l.foldl applyInput s) := by
      intro l
      induction l with
      | nil => exact fun _ h => h
      | cons a rest ih => exact fun s h => ih _ (applyInput_atMostOneFile s a h)
    exact hgen actions _ (Or.inl rfl)
  · intro s f ht hs
    have hs2 : ¬ (f.size > 10 * 1024 * 1024) := by omega
    simp [handleImageChange, ht, hs2]
  · intro s f ht hs
    have hs2 : ¬ (f.size > 50 * 1024 * 1024) := by omega
    simp [handleVideoChange, ht, hs2]
  · intro s f h
    simp only [handleImageChange]
    rcases h with h | h
    · simp [h]
    · split
      · rfl
      · simp [h]
  · intro s f h
    simp only [handleVideoChange]
    rcases h with h | h
    · simp [h]
    · split
      · rfl
      · simp [h]

/-! ### Date groups -/

theorem groupStep_spec (dateKeyOf dateLabelOf : String → String) (st : GroupingState)
    (m : Message) (h : wellGrouped dateKeyOf st.groups)
    (hnone : st.currentGroup = none → st.pushed = []) :
    (wellGrouped dateKeyOf (groupStep dateKeyOf dateLabelOf st m).groups ∧
      groupedMessages (groupStep dateKeyOf dateLabelOf st m).groups
        = groupedMessages st.groups ++ [m]) ∧
    (groupStep dateKeyOf dateLabelOf st m).currentGroup ≠ none := by
  obtain ⟨pushed, cur⟩ := st
  cases cur with
  | none =>
    have hp : pushed = [] := hnone rfl
    subst hp
    refine ⟨⟨⟨?_, ?_⟩, ?_⟩, by simp [groupStep]⟩
    · intro g hg
      simp only [groupStep, GroupingState.groups, Option.toList, List.nil_append,
        List.mem_singleton] at hg
      subst hg
      exact ⟨by simp, by simp⟩
    · simp [groupStep, GroupingState.groups]
    · simp [groupStep, GroupingState.groups, groupedMessages]
  | some g =>
    refine ⟨?_, by
      simp only [groupStep]
      split <;> simp⟩
    simp only [GroupingState.groups, Option.toList] at h
    by_cases hd : g.date ≠ dateKeyOf m.createdAt
    · simp only [groupStep, hd, if_true, GroupingState.groups, Option.toList, groupedMessages,
        List.map_append, List.map_cons, List.map_nil, List.flatten_append, List.flatten_cons,
        List.flatten_nil, List.append_nil, ne_eq, not_false_eq_true]
      refine ⟨⟨?_, ?_⟩, trivial⟩
      · intro x hx
        rw [List.mem_append, List.mem_singleton] at hx
        rcases hx with hx | hx
        · exact h.1 x hx
        · subst hx
          exact ⟨by simp, by simp⟩
      · rw [List.chain'_append]
        refine ⟨h.2, List.chain'_singleton _, ?_⟩
        intro x hx y hy
        rw [List.getLast?_concat] at hx
        simp only [Option.mem_def, Option.some.injEq] at hx
        simp only [List.head?_cons, Option.mem_def, Option.some.injEq] at hy
        subst hx
        subst hy
        exact hd
    · have hd2 : g.date = dateKeyOf m.createdAt := by
        by_contra hne
        exact hd hne
      simp only [groupStep, hd, if_false, GroupingState.groups, Option.toList, groupedMessages,
        List.map_append, List.map_cons, List.map_nil, List.flatten_append, List.flatten_cons,
        List.flatten_nil, List.append_nil, List.append_assoc]
      refine ⟨⟨?_, ?_⟩, trivial⟩
      · intro x hx
        rw [List.mem_append, List.mem_singleton] at hx
        rcases hx with hx | hx
        · exact h.1 x (List.mem_append_left _ hx)
        · subst hx
          have hg := h.1 g (List.mem_append_right _ (List.mem_singleton_self g))
          refine ⟨by simp, ?_⟩
          intro y hy
          rw [List.mem_append, List.mem_singleton] at hy
          rcases hy with hy | hy
          · exact hg.2 y hy
          · subst hy
            exact hd2.symm
      · have hc := h.2
        rw [List.chain'_append] at hc ⊢
        refine ⟨hc.1, List.chain'_singleton _, ?_⟩
        intro x hx y hy
        simp only [List.head?_cons, Option.mem_def, Option.some.injEq] at hy
        subst hy
        exact hc.2.2 x hx g (by simp)

theorem groupFold_spec (dateKeyOf dateLabelOf : String → String) (l : List Message) :
    ∀ st : GroupingState, wellGrouped dateKeyOf st.groups →
      (st.currentGroup = none → st.pushed = []) →
      wellGrouped dateKeyOf (l.foldl (groupStep dateKeyOf dateLabelOf) st).groups ∧
      groupedMessages (l.foldl (groupStep dateKeyOf dateLabelOf) st).groups
        = groupedMessages st.groups ++ l := by
  induction l with
  | nil => intro st h _; exact ⟨h, by simp⟩
  | cons m rest ih =>
    intro st h hnone
    have hs := groupStep_spec dateKeyOf dateLabelOf st m h hnone
    have hr := ih _ hs.1.1 (fun hc => absurd hc hs.2)
    refine ⟨hr.1, ?_⟩
    rw [List.foldl_cons, hr.2, hs.1.2, List.append_assoc]
    rfl

/-- C30: for every messages list (and every reading of dates),
`groupMessagesByDate` returns groups whose messages, concatenated in order,
are the input list; every group is non-empty; every message of a group has
the date key of the group; adjacent groups have different date keys.  Groups
that are not adjacent may share a date key: the keys `A`, `B`, `A` in this
order give three groups. -/
theorem groupMessagesByDate_spec (dateKeyOf dateLabelOf : String → String)
    (messages : List Message) :
    groupedMessages (groupMessagesByDate dateKeyOf dateLabelOf messages) = messages ∧
    (∀ g ∈ groupMessagesByDate dateKeyOf dateLabelOf messages, g.messages ≠ []) ∧
    (∀ g ∈ groupMessagesByDate dateKeyOf dateLabelOf messages,
      ∀ m ∈ g.messages, dateKeyOf m.createdAt = g.date) ∧
    (groupMessagesByDate dateKeyOf dateLabelOf messages).Chain' (fun a b => a.date ≠ b.date) ∧
    (groupMessagesByDate id id
        [sampleMessage "1" "P" "me" "A", sampleMessage "2" "P" "me" "B",
          sampleMessage "3" "P" "me" "A"]).map (fun g => g.date) = ["A", "B", "A"] := by
  have h0 : wellGrouped dateKeyOf
      ({ pushed := [], currentGroup := none } : GroupingState).groups :=
    ⟨by simp [GroupingState.groups], by simp [GroupingState.groups]⟩
  have h := groupFold_spec dateKeyOf dateLabelOf messages _ h0 (fun _ => rfl)
  refine ⟨?_, fun g hg => (h.1.1 g hg).1, fun g hg => (h.1.1 g hg).2, h.1.2, by decide⟩
  have := h.2
  simpa [groupMessagesByDate, groupedMessages, GroupingState.groups] using this

/-! ### Typing signals -/

/-- The render that follows `setIsTyping(true)` queues no further update, so
two effect runs settle a render. -/
theorem effectRun_settles (now : Nat) (s : TypingState) :
    (effectRun now { s with isTyping := true }).2 = none := by
  simp [effectRun]

/-- C26 (failing input): `MessageInput` is mounted and the text changes at 0,
200, 400 and 600 ms, non-blank throughout and left in the input.  Up to
1600 ms the effect has emitted `typing` at 0 and `stopTyping` at 1600, but the
render caused by `setIsTyping(false)` finds the text non-blank and emits
`typing` again at 1600; the signals up to 3000 ms are `typing` 0,
`stopTyping` 1600, `typing` 1600, `stopTyping` 2600, `typing` 2600, with the
next timeout pending for 3600. -/
theorem typing_signals_repeat :
    (runTyping 10 [(0, "h"), (200, "he"), (400, "hel"), (600, "hell")] 1599
        (mountInput 0)).signals = [(0, .typing)] ∧
    (runTyping 10 [(0, "h"), (200, "he"), (400, "hel"), (600, "hell")] 1599
        (mountInput 0)).timer = some (1600, true) ∧
    (runTyping 10 [(0, "h"), (200, "he"), (400, "hel"), (600, "hell")] 3000
        (mountInput 0)).signals
      = [(0, .typing), (1600, .stopTyping), (1600, .typing), (2600, .stopTyping),
          (2600, .typing)] ∧
    (runTyping 10 [(0, "h"), (200, "he"), (400, "hel"), (600, "hell")] 3000
        (mountInput 0)).timer = some (3600, true) ∧
    (runTyping 10 [(0, "h"), (200, "he"), (400, "hel"), (600, "hell")] 3000
        (mountInput 0)).text = "hell" := by
  refine ⟨by decide, by decide, by decide, by decide, by decide⟩

end ChatStore
